import Mathlib

/-!
Verification of the vLLM-variant scheduler and paged KV-cache block manager
(`vllm/core/block_manager_v1.py`, `vllm/core/.backup/scheduler.py`,
`vllm/core/policy.py`, `vllm/sequence.py`, `vllm/engine/llm_engine.py`)
against its natural-language specification.

The embedding is shallow: Python classes become Lean structures, mutation
becomes explicit state passing, exceptions become `Except String`.
Python `list.pop()` / `list.append()` on a free list are modelled with the
Lean list head as the Python list end (pop takes the head, free pushes the
head); only the stack discipline is observable.  Reference counts, which in
Python live on shared `PhysicalTokenBlock` objects, are modelled as an
association list from block number to count, one per allocator (block
numbers are unique per device).  All modelled configurations have
`enable_caching = False`, no sliding window and no encoder/decoder
sequences, except where the cached allocator is modelled explicitly.
-/

namespace VllmModel

/-- `vllm.utils.Device`: the two tiers of the paged KV cache. -/
inductive Device where
  | gpu
  | cpu
deriving DecidableEq, Repr

/-- `vllm.sequence.SequenceStatus` (the enum members the core uses). -/
inductive SequenceStatus where
  | waiting
  | running
  | swapped
  | finishedStopped
  | finishedLengthCapped
  | finishedAborted
  | finishedIgnored
  | partialSwapped
deriving DecidableEq, Repr

/-- `SequenceStatus.is_finished`: `status > SWAPPED` on the IntEnum, i.e.
everything after `SWAPPED = 2` counts as finished — including
`PARTIAL_SWAPPED = 7`. -/
def SequenceStatus.isFinished : SequenceStatus → Bool
  | .waiting => false
  | .running => false
  | .swapped => false
  | .finishedStopped => true
  | .finishedLengthCapped => true
  | .finishedAborted => true
  | .finishedIgnored => true
  | .partialSwapped => true

/-- `vllm.sequence.SequenceStage`. -/
inductive SequenceStage where
  | prefill
  | decode
deriving DecidableEq, Repr

/-- A physical token block reference as held in a block table: the
`(device, block_number)` identity of a `PhysicalTokenBlock`. -/
structure Blk where
  device : Device
  number : Nat
deriving DecidableEq, Repr

/-- Look up a block number in an allocator ref-count association list
(absent numbers have count 0, matching a freshly constructed pool). -/
def lookupRef (m : List (Nat × Nat)) (k : Nat) : Nat :=
  match m with
  | [] => 0
  | p :: rest => if p.1 == k then p.2 else lookupRef rest k

/-- Point update of a ref-count association list: replace the first binding
of `k`, or append a new one. -/
def setRef (m : List (Nat × Nat)) (k v : Nat) : List (Nat × Nat) :=
  match m with
  | [] => [(k, v)]
  | p :: rest => if p.1 == k then (k, v) :: rest else p :: setRef rest k v

/-- `UncachedBlockAllocator` (block_manager_v1.py:168-269): a pre-filled
free list of `num_blocks` normal blocks plus a (usually empty) shared free
list.  `freeList` holds free block numbers with the Lean head at the Python
list end. -/
structure UncachedAllocator where
  device : Device
  numBlocks : Nat
  numSharedBlocks : Nat
  freeList : List Nat
  freeSharedList : List Nat
  ref : List (Nat × Nat)
deriving DecidableEq, Repr

/-- Block type selector (`block_type` strings in the source). -/
inductive BlockType where
  | normal
  | shared
deriving DecidableEq, Repr

/-- `UncachedBlockAllocator.allocate` (lines 203-219): pop the free list
and set the block ref count to 1; raise when empty. -/
def UncachedAllocator.allocate (a : UncachedAllocator) (bt : BlockType := .normal) :
    Except String (Blk × UncachedAllocator) :=
  match bt with
  | .normal =>
    match a.freeList with
    | [] => .error "Out of memory! No free blocks are available."
    | bn :: rest =>
      .ok (⟨a.device, bn⟩, { a with freeList := rest, ref := setRef a.ref bn 1 })
  | .shared =>
    match a.freeSharedList with
    | [] => .error "Out of shared memory! No free blocks are available."
    | bn :: rest =>
      .ok (⟨a.device, bn⟩,
           { a with freeSharedList := rest, ref := setRef a.ref bn 1 })

/-- `UncachedBlockAllocator.free` (lines 221-231): raise on double free,
otherwise decrement the ref count and push the block back on the free list
when it reaches zero. -/
def UncachedAllocator.free (a : UncachedAllocator) (bn : Nat) (bt : BlockType := .normal) :
    Except String UncachedAllocator :=
  let r := lookupRef a.ref bn
  if r = 0 then .error "Double free! Block is already freed."
  else
    let a1 := { a with ref := setRef a.ref bn (r - 1) }
    if r - 1 = 0 then
      match bt with
      | .normal => .ok { a1 with freeList := bn :: a1.freeList }
      | .shared => .ok { a1 with freeSharedList := bn :: a1.freeSharedList }
    else .ok a1

/-- `UncachedBlockAllocator.get_num_free_blocks` (lines 233-239). -/
def UncachedAllocator.numFree (a : UncachedAllocator) (bt : BlockType := .normal) : Nat :=
  match bt with
  | .normal => a.freeList.length
  | .shared => a.freeSharedList.length

/-- Run an allocator free with the caller convention that a raised
exception leaves the caller state unchanged. -/
def UncachedAllocator.runFree (a : UncachedAllocator) (bn : Nat)
    (bt : BlockType := .normal) : UncachedAllocator :=
  match a.free bn bt with
  | .ok a2 => a2
  | .error _ => a

/-- `vllm.sequence.SequenceType`. -/
inductive SequenceType where
  | temp
  | normal
deriving DecidableEq, Repr

/-- One generation stream (`vllm.sequence.Sequence` together with its
`SequenceData`).  The block table that block_manager_v1 keys by `seq_id`
is carried on the sequence (`none` when `seq_id` is not in the manager
map); this is observationally the same because engine-assigned `seq_id`s
are unique. -/
structure Seq where
  seqId : Nat
  blockSize : Nat
  promptTokenIds : List Nat
  outputTokenIds : List Nat
  numComputedTokens : Nat
  stage : SequenceStage
  status : SequenceStatus
  seqType : SequenceType
  swappedOutBlockNums : Nat
  eosTokenProbPos : List Int
  blockTable : Option (List Blk)
deriving DecidableEq, Repr

/-- `SequenceData.get_len`: prompt plus output length. -/
def Seq.len (s : Seq) : Nat :=
  s.promptTokenIds.length + s.outputTokenIds.length

/-- `Sequence.n_blocks = ceil(len / block_size)`. -/
def Seq.nBlocks (s : Seq) : Nat :=
  (s.len + s.blockSize - 1) / s.blockSize

/-- `Sequence.is_finished`. -/
def Seq.isFinished (s : Seq) : Bool :=
  s.status.isFinished

/-- `SequenceData.get_num_uncomputed_tokens`. -/
def Seq.numUncomputedTokens (s : Seq) : Nat :=
  s.len - s.numComputedTokens

/-- `Sequence.get_num_new_tokens`: 1 in decode, remaining uncomputed
tokens in prefill. -/
def Seq.getNumNewTokens (s : Seq) : Nat :=
  match s.stage with
  | .decode => 1
  | .prefill => s.numUncomputedTokens

/-- `Sequence.update_swapped_out_block_nums` (sequence.py:387-389): add and
then cap at `n_blocks`. -/
def Seq.updateSwappedOutBlockNums (s : Seq) (n : Nat) : Seq :=
  { s with swappedOutBlockNums := min s.nBlocks (s.swappedOutBlockNums + n) }

/-- `Sequence.get_eos_token_pos` (sequence.py:375-379): below the
15-element estimation window return `[-1]`, else the recorded ranks. -/
def Seq.getEosTokenPos (s : Seq) : List Int :=
  if s.eosTokenProbPos.length < 15 then [-1] else s.eosTokenProbPos

/-- The sampling parameters the scheduler core reads
(`vllm.sampling_params.SamplingParams`). -/
structure SamplingParams where
  n : Nat
  bestOf : Nat
  useBeamSearch : Bool
  maxTokens : Nat
deriving DecidableEq, Repr

/-- `vllm.sequence.SequenceGroup` restricted to the state the scheduler
core reads and writes.  `seqs` is `seqs_dict` in insertion order.  Metric
and policy metadata fields are carried inline; real-valued times are
modelled as integers. -/
structure Group where
  requestId : String
  seqs : List Seq
  arrivalTime : Int
  samplingParams : Option SamplingParams
  waitingIterNums : Nat
  firstScheduledTime : Int
  currentPriority : Option Nat
  promoted : Nat
  priorityRate : ℚ
deriving DecidableEq, Repr

/-- `SequenceGroup.get_seqs(status)`. -/
def Group.getSeqs (g : Group) (st : SequenceStatus) : List Seq :=
  g.seqs.filter (fun s => s.status == st)

/-- `SequenceGroup.num_seqs()` (no status filter). -/
def Group.numSeqs (g : Group) : Nat := g.seqs.length

/-- `SequenceGroup.get_unfinished_seqs`. -/
def Group.unfinishedSeqs (g : Group) : List Seq :=
  g.seqs.filter (fun s => !s.isFinished)

/-- `SequenceGroup.get_max_num_running_seqs` (sequence.py:685-701). -/
def Group.getMaxNumRunningSeqs (g : Group) : Nat :=
  match g.samplingParams with
  | some sp =>
    if sp.useBeamSearch then sp.bestOf
    else if sp.bestOf > g.numSeqs then sp.bestOf
    else g.unfinishedSeqs.length
  | none => g.unfinishedSeqs.length

/-- `SequenceGroup.max_length`: `sampling_params.max_tokens`, with 10240
as the no-sampling-params default (sequence.py:574-577). -/
def Group.maxLength (g : Group) : Nat :=
  match g.samplingParams with
  | some sp => sp.maxTokens
  | none => 10240

/-- `SequenceGroup.seq_len`: total token count over all sequences. -/
def Group.seqLen (g : Group) : Nat :=
  (g.seqs.map Seq.len).sum

/-- `SequenceGroup.prompt_token_ids`: the prompt of the first sequence. -/
def Group.promptTokenIds (g : Group) : List Nat :=
  match g.seqs with
  | [] => []
  | s :: _ => s.promptTokenIds

/-- `SequenceGroup.is_prefill`: stage of the first sequence. -/
def Group.isPrefill (g : Group) : Bool :=
  match g.seqs with
  | [] => true
  | s :: _ => s.stage == .prefill

/-- `vllm.core.interfaces.AllocStatus`. -/
inductive AllocStatus where
  | ok
  | later
  | never
deriving DecidableEq, Repr

/-- `BlockSpaceManagerV1` in its uncached configuration
(`enable_caching = False`, `sliding_window = None`): the two allocators
plus the admission-control constants.  `watermarkBlocks` is
`int(watermark * num_gpu_blocks)`; `gpuBlockCapacity` (line 320) is
derived below. -/
structure BlockManager where
  blockSize : Nat
  numTotalGpuBlocks : Nat
  numTotalCpuBlocks : Nat
  numSharedBlocks : Nat
  watermarkBlocks : Nat
  gpu : UncachedAllocator
  cpu : UncachedAllocator
deriving DecidableEq, Repr

/-- `self.gpu_block_capacity = num_total_gpu_blocks - watermark_blocks -
num_shared_blocks` (block_manager_v1.py:320), as a Python int. -/
def BlockManager.gpuBlockCapacity (bm : BlockManager) : Int :=
  (bm.numTotalGpuBlocks : Int) - bm.watermarkBlocks - bm.numSharedBlocks

/-- `BlockSpaceManagerV1.can_allocate` (block_manager_v1.py:331-363) for a
decoder-only group with `shared=False` and no sliding window: the required
block count is the first WAITING sequence's `n_blocks`; NEVER when
`gpu_block_capacity - need < 0`, OK when `free - need >= watermark_blocks`,
LATER otherwise.  Raises `IndexError` when the group has no waiting
sequence (the `[0]` subscript). -/
def BlockManager.canAllocate (bm : BlockManager) (g : Group) :
    Except String AllocStatus :=
  match g.getSeqs .waiting with
  | [] => .error "IndexError: list index out of range"
  | s :: _ =>
    let numRequiredBlocks : Int := s.nBlocks
    let numFreeGpuBlocks : Int := bm.gpu.numFree
    if bm.gpuBlockCapacity - numRequiredBlocks < 0 then .ok .never
    else if bm.watermarkBlocks ≤ numFreeGpuBlocks - numRequiredBlocks then .ok .ok
    else .ok .later

/-- `SchedulingBudget` (scheduler.py:72-146): per-iteration token and
sequence accounting keyed by request id. -/
structure SchedulingBudget where
  tokenBudget : Nat
  maxNumSeqs : Nat
  requestIdsNumBatchedTokens : List String
  requestIdsNumCurrSeqs : List String
  numBatchedTokens : Int
  numCurrSeqs : Int
deriving DecidableEq, Repr

/-- `SchedulingBudget.add_num_batched_tokens` (scheduler.py:112-117): a
second update for an already-recorded request id is ignored. -/
def SchedulingBudget.addNumBatchedTokens (b : SchedulingBudget)
    (reqId : String) (numBatchedTokens : Int) : SchedulingBudget :=
  if reqId ∈ b.requestIdsNumBatchedTokens then b
  else
    { b with
      requestIdsNumBatchedTokens := reqId :: b.requestIdsNumBatchedTokens,
      numBatchedTokens := b.numBatchedTokens + numBatchedTokens }

/-- `SchedulingBudget.add_num_seqs` (scheduler.py:128-133). -/
def SchedulingBudget.addNumSeqs (b : SchedulingBudget)
    (reqId : String) (numCurrSeqs : Int) : SchedulingBudget :=
  if reqId ∈ b.requestIdsNumCurrSeqs then b
  else
    { b with
      requestIdsNumCurrSeqs := reqId :: b.requestIdsNumCurrSeqs,
      numCurrSeqs := b.numCurrSeqs + numCurrSeqs }

/-- A cached (prefix-sharing) block as `CachedBlockAllocator` sees it:
block number, content hash and the shared mutable ref count. -/
structure CBlk where
  number : Nat
  blockHash : Int
  refCount : Nat
deriving DecidableEq, Repr

/-- `CachedBlockAllocator` (block_manager_v1.py:74-165) state: the
hash-indexed map of in-use blocks and the evictor pool of ref-count-zero
blocks that still retain content. -/
structure CachedAllocator where
  numBlocks : Nat
  currentNumBlocks : Nat
  cachedBlocks : List (Int × CBlk)
  evictor : List CBlk
deriving DecidableEq, Repr

/-- Remove the first binding of a hash from the cached map. -/
def removeHash (m : List (Int × CBlk)) (h : Int) : List (Int × CBlk) :=
  match m with
  | [] => []
  | p :: rest => if p.1 == h then rest else p :: removeHash rest h

/-- Update the first binding of a hash in the cached map (aliased mutation
of the shared block object). -/
def setHash (m : List (Int × CBlk)) (h : Int) (b : CBlk) : List (Int × CBlk) :=
  match m with
  | [] => [(h, b)]
  | p :: rest => if p.1 == h then (h, b) :: rest else p :: setHash rest h b

/-- `CachedBlockAllocator.free` (block_manager_v1.py:134-142): raise on
double free; otherwise decrement, and on reaching zero move the block to
the evictor and drop it from `cached_blocks`. -/
def CachedAllocator.free (a : CachedAllocator) (b : CBlk) :
    Except String CachedAllocator :=
  if b.refCount = 0 then .error "Double free! Block is already freed."
  else
    let b1 : CBlk := { b with refCount := b.refCount - 1 }
    if b1.refCount = 0 then
      .ok { a with
            evictor := a.evictor ++ [b1],
            cachedBlocks := removeHash a.cachedBlocks b.blockHash }
    else .ok { a with cachedBlocks := setHash a.cachedBlocks b.blockHash b1 }

/-- Run a cached free with the caller convention that a raised exception
leaves the caller state unchanged. -/
def CachedAllocator.runFree (a : CachedAllocator) (b : CBlk) : CachedAllocator :=
  match a.free b with
  | .ok a2 => a2
  | .error _ => a

/-- `BlockSpaceManagerV1._swap_block_table` (block_manager_v1.py:678-697):
for each block of the table, reuse the destination block recorded in the
mapping (bumping its ref count) or allocate a fresh destination block and
record it, then free the source block.  The mapping is an insertion-ordered
association list mirroring the Python dict. -/
def swapBlockTable (table : List Blk) (src dest : UncachedAllocator)
    (mapping : List (Blk × Blk)) :
    Except String (List Blk × UncachedAllocator × UncachedAllocator × List (Blk × Blk)) :=
  match table with
  | [] => .ok ([], src, dest, mapping)
  | fromBlock :: rest =>
    match mapping.find? (fun p => p.1 == fromBlock) with
    | some p =>
      let toBlock := p.2
      let dest1 := { dest with
                     ref := setRef dest.ref toBlock.number
                              (lookupRef dest.ref toBlock.number + 1) }
      match src.free fromBlock.number with
      | .error e => .error e
      | .ok src1 =>
        match swapBlockTable rest src1 dest1 mapping with
        | .error e => .error e
        | .ok (restTable, src2, dest2, m2) =>
          .ok (toBlock :: restTable, src2, dest2, m2)
    | none =>
      match dest.allocate with
      | .error e => .error e
      | .ok (toBlock, dest1) =>
        let mapping1 := mapping ++ [(fromBlock, toBlock)]
        match src.free fromBlock.number with
        | .error e => .error e
        | .ok src1 =>
          match swapBlockTable rest src1 dest1 mapping1 with
          | .error e => .error e
          | .ok (restTable, src2, dest2, m2) =>
            .ok (toBlock :: restTable, src2, dest2, m2)

/-- The per-sequence body of `BlockSpaceManagerV1.swap_out`
(block_manager_v1.py:768-809).  `swapOutBlockNums > 0` swaps the slice
`[counter, min(counter + n, len))` of the table and advances the
sequence's swapped-block counter by `n` capped at `n_blocks`; otherwise
(`-1`) the whole table is swapped and the counter advances by the table
length, same cap. -/
def swapOutSeq (gpu cpu : UncachedAllocator) (mapping : List (Blk × Blk))
    (s : Seq) (swapOutBlockNums : Int) :
    Except String (UncachedAllocator × UncachedAllocator × List (Blk × Blk) × Seq) :=
  match s.blockTable with
  | none => .error "KeyError: seq_id not in block_tables"
  | some blockTables =>
    let blockTableLength := blockTables.length
    if 0 < swapOutBlockNums then
      let n := swapOutBlockNums.toNat
      let swappedOutBlocksIdx := s.swappedOutBlockNums
      let swappingOutBlocksIdx := min (swappedOutBlocksIdx + n) blockTableLength
      let s1 := s.updateSwappedOutBlockNums n
      let swappingOutBlocks :=
        (blockTables.take swappingOutBlocksIdx).drop swappedOutBlocksIdx
      match swapBlockTable swappingOutBlocks gpu cpu mapping with
      | .error e => .error e
      | .ok (swappedOutBlocks, gpu1, cpu1, m1) =>
        let newTable :=
          blockTables.take swappedOutBlocksIdx ++ swappedOutBlocks ++
            blockTables.drop swappingOutBlocksIdx
        .ok (gpu1, cpu1, m1, { s1 with blockTable := some newTable })
    else
      let s1 := s.updateSwappedOutBlockNums blockTableLength
      match swapBlockTable blockTables gpu cpu mapping with
      | .error e => .error e
      | .ok (swappedOutBlocks, gpu1, cpu1, m1) =>
        .ok (gpu1, cpu1, m1, { s1 with blockTable := some swappedOutBlocks })

/-- The index-splicing step of `BlockSpaceManagerV1.swap_in`
(block_manager_v1.py:712-735): the loop records, for every CPU-resident
table index, its position in the list handed to `_swap_block_table`, and
afterwards writes the swapped-in block back at that index.  Positions are
assigned in increasing index order, so this is: replace the CPU entries of
the table, left to right, by the replacement list.  The replacement list
always has exactly one entry per CPU index; an exhausted replacement list
(unreachable) leaves the entry in place. -/
def replaceCpuBlocks : List Blk → List Blk → List Blk
  | [], _ => []
  | b :: rest, repls =>
    if b.device == Device.cpu then
      match repls with
      | r :: rs => r :: replaceCpuBlocks rest rs
      | [] => b :: replaceCpuBlocks rest []
    else b :: replaceCpuBlocks rest repls

/-- The per-sequence body of `BlockSpaceManagerV1.swap_in`
(block_manager_v1.py:708-737): reset the swapped counter, collect the
CPU-resident blocks of the table (or, when there are none, the whole
table), move them through `_swap_block_table`, and splice the new device
blocks back at the original indices. -/
def swapInSeq (cpu gpu : UncachedAllocator) (mapping : List (Blk × Blk))
    (s : Seq) :
    Except String (UncachedAllocator × UncachedAllocator × List (Blk × Blk) × Seq) :=
  match s.blockTable with
  | none => .error "KeyError: seq_id not in block_tables"
  | some blockTable =>
    let s1 := { s with swappedOutBlockNums := 0 }
    let cpuBlocks := blockTable.filter (fun b => b.device == Device.cpu)
    if cpuBlocks.isEmpty then
      match swapBlockTable blockTable cpu gpu mapping with
      | .error e => .error e
      | .ok (swappedInBlocks, cpu1, gpu1, m1) =>
        .ok (cpu1, gpu1, m1, { s1 with blockTable := some swappedInBlocks })
    else
      match swapBlockTable cpuBlocks cpu gpu mapping with
      | .error e => .error e
      | .ok (swappedInBlocks, cpu1, gpu1, m1) =>
        let newTable := replaceCpuBlocks blockTable swappedInBlocks
        .ok (cpu1, gpu1, m1, { s1 with blockTable := some newTable })

/-- Thread a per-sequence step over a list of sequences, returning the
final state and the updated sequences in processing order (the shape of
the `for seq in seqs:` loops of `swap_out` and `swap_in`, with the
`mapping` dict shared across iterations). -/
def processSeqs (step : α → Seq → Except String (α × Seq)) :
    α → List Seq → Except String (α × List Seq)
  | st, [] => .ok (st, [])
  | st, s :: rest =>
    match step st s with
    | .error e => .error e
    | .ok (st1, s1) =>
      match processSeqs step st1 rest with
      | .error e => .error e
      | .ok (st2, rest1) => .ok (st2, s1 :: rest1)

/-- Write the processed sequences back into the group: each sequence is
replaced by its processed version, found by `seq_id` (in Python the loop
mutates the shared `Sequence` objects in place; with unique `seq_id`s this
is the same). -/
def Group.withProcessed (g : Group) (processed : List Seq) : Group :=
  { g with
    seqs := g.seqs.map (fun s =>
      match processed.find? (fun p => p.seqId == s.seqId) with
      | some p => p
      | none => s) }

/-- State threaded through a group-level swap: the two allocators and the
shared block mapping. -/
structure SwapSt where
  src : UncachedAllocator
  dest : UncachedAllocator
  mapping : List (Blk × Blk)
deriving DecidableEq, Repr

/-- `BlockSpaceManagerV1.swap_out` (block_manager_v1.py:758-818) for a
decoder-only group: process the RUNNING sequences then the
PARTIAL_SWAPPED ones, and return the accumulated `(gpu_no, cpu_no)` pairs
in mapping insertion order (the source iterates `mapping.items()`; its
comprehension names the pair `(cpu_block, gpu_block)` but the mapping maps
GPU blocks to CPU blocks, so the pairs are in fact GPU first). -/
def swapOutStep (swapOutBlockNums : Int) (st : SwapSt) (s : Seq) :
    Except String (SwapSt × Seq) :=
  match swapOutSeq st.src st.dest st.mapping s swapOutBlockNums with
  | .error e => .error e
  | .ok (gpu1, cpu1, m1, s1) => .ok (⟨gpu1, cpu1, m1⟩, s1)

def BlockManager.swapOut (bm : BlockManager) (g : Group) (swapOutBlockNums : Int := -1) :
    Except String (BlockManager × Group × List (Nat × Nat)) :=
  match processSeqs (swapOutStep swapOutBlockNums) ⟨bm.gpu, bm.cpu, []⟩
      (g.getSeqs .running ++ g.getSeqs .partialSwapped) with
  | .error e => .error e
  | .ok (st1, processed) =>
    .ok ({ bm with gpu := st1.src, cpu := st1.dest },
         g.withProcessed processed,
         st1.mapping.map (fun p => (p.1.number, p.2.number)))

/-- `BlockSpaceManagerV1.swap_in` (block_manager_v1.py:699-752) for a
decoder-only group: process the SWAPPED then PARTIAL_SWAPPED sequences and
return the `(cpu_no, gpu_no)` pairs in mapping insertion order. -/
def swapInStep (st : SwapSt) (s : Seq) : Except String (SwapSt × Seq) :=
  match swapInSeq st.src st.dest st.mapping s with
  | .error e => .error e
  | .ok (cpu1, gpu1, m1, s1) => .ok (⟨cpu1, gpu1, m1⟩, s1)

def BlockManager.swapIn (bm : BlockManager) (g : Group) :
    Except String (BlockManager × Group × List (Nat × Nat)) :=
  match processSeqs swapInStep ⟨bm.cpu, bm.gpu, []⟩
      (g.getSeqs .swapped ++ g.getSeqs .partialSwapped) with
  | .error e => .error e
  | .ok (st1, processed) =>
    .ok ({ bm with cpu := st1.src, gpu := st1.dest },
         g.withProcessed processed,
         st1.mapping.map (fun p => (p.1.number, p.2.number)))

/-- `BlockSpaceManagerV1._get_physical_blocks` (block_manager_v1.py:627-641)
for a decoder-only group: the set of blocks referenced by the tables of
the non-finished sequences (deduplicated; only its size is consumed). -/
def BlockManager.getPhysicalBlocks (_bm : BlockManager) (g : Group) : List Blk :=
  ((g.seqs.filter (fun s => !s.isFinished)).flatMap
      (fun s => s.blockTable.getD [])).dedup

/-- `BlockSpaceManagerV1.can_swap_out` (block_manager_v1.py:754-756). -/
def BlockManager.canSwapOut (bm : BlockManager) (g : Group) : Bool :=
  (bm.getPhysicalBlocks g).length ≤ bm.cpu.numFree

/-- `Scheduler._swap_out` (scheduler.py:2691-2711): check host capacity,
perform the block-manager swap-out, then move every RUNNING sequence to
the given status (`SWAPPED` by default). -/
def schedSwapOut (bm : BlockManager) (g : Group) (swapOutBlockNums : Int := -1)
    (seqGroupStatus : SequenceStatus := .swapped) :
    Except String (BlockManager × Group × List (Nat × Nat)) :=
  if !bm.canSwapOut g then
    .error "Aborted due to the lack of CPU swap space."
  else
    match bm.swapOut g swapOutBlockNums with
    | .error e => .error e
    | .ok (bm1, g1, pairs) =>
      let g2 := { g1 with
                  seqs := g1.seqs.map (fun s =>
                    if s.status == .running then { s with status := seqGroupStatus }
                    else s) }
      .ok (bm1, g2, pairs)

/-- `Scheduler._swap_in` (scheduler.py:2675-2689): perform the
block-manager swap-in and then move every SWAPPED or PARTIAL_SWAPPED
sequence to RUNNING. -/
def schedSwapIn (bm : BlockManager) (g : Group) :
    Except String (BlockManager × Group × List (Nat × Nat)) :=
  match bm.swapIn g with
  | .error e => .error e
  | .ok (bm1, g1, pairs) =>
    let g2 := { g1 with
                seqs := g1.seqs.map (fun s =>
                  if s.status == .swapped || s.status == .partialSwapped then
                    { s with status := .running }
                  else s) }
    .ok (bm1, g2, pairs)

/-- `BlockSpaceManagerV1._allocate_last_physical_block`
(block_manager_v1.py:517-550) with `enable_caching = False`: allocate a
fresh GPU block, from the shared pool for TEMP sequences. -/
def BlockManager.allocateLastPhysicalBlock (bm : BlockManager) (s : Seq) :
    Except String (Blk × BlockManager) :=
  match s.seqType with
  | .temp =>
    match bm.gpu.allocate .shared with
    | .error e => .error e
    | .ok (b, gpu1) => .ok (b, { bm with gpu := gpu1 })
  | .normal =>
    match bm.gpu.allocate with
    | .error e => .error e
    | .ok (b, gpu1) => .ok (b, { bm with gpu := gpu1 })

/-- `BlockSpaceManagerV1.append_slots` (block_manager_v1.py:552-609) with
`enable_caching = False` and no sliding window.  When the table is one
block short of `n_blocks`, allocate and append a block and return no copy
pairs; otherwise, when the last block is shared (`ref_count > 1`), perform
copy-on-write: allocate a fresh block, overwrite the last table entry,
free (decrement) the old block and return the single
`(old_number, new_number)` pair. -/
def BlockManager.appendSlots (bm : BlockManager) (s : Seq) :
    Except String (BlockManager × Seq × List (Nat × Nat)) :=
  match s.blockTable with
  | none => .error "KeyError: seq_id not in block_tables"
  | some blockTable =>
    if blockTable.length < s.nBlocks then
      if blockTable.length + 1 ≠ s.nBlocks then
        .error "AssertionError: only one new block may be needed"
      else
        match bm.allocateLastPhysicalBlock s with
        | .error e => .error e
        | .ok (newBlock, bm1) =>
          .ok (bm1, { s with blockTable := some (blockTable ++ [newBlock]) }, [])
    else
      match blockTable.getLast? with
      | none => .error "IndexError: empty block table"
      | some lastBlock =>
        if lastBlock.device != Device.gpu then
          .error "AssertionError: last block not on GPU"
        else if lookupRef bm.gpu.ref lastBlock.number == 1 then
          .ok (bm, s, [])
        else
          match bm.allocateLastPhysicalBlock s with
          | .error e => .error e
          | .ok (newBlock, bm1) =>
            let bt : BlockType := if s.seqType == .temp then .shared else .normal
            match bm1.gpu.free lastBlock.number bt with
            | .error e => .error e
            | .ok gpu2 =>
              .ok ({ bm1 with gpu := gpu2 },
                   { s with blockTable := some (blockTable.dropLast ++ [newBlock]) },
                   [(lastBlock.number, newBlock.number)])

/-- The scheduling-policy name held in the scheduler configuration (the
`policy` string); only the `tfittradeoff` comparison matters to the paths
modelled here. -/
inductive PolicyName where
  | fcfs
  | tfittradeoff
  | other
deriving DecidableEq, Repr

/-- The slice of `SchedulerConfig` the modelled paths read. -/
structure SchedulerConfig where
  chunkedPrefillEnabled : Bool
  maxNumBatchedTokens : Nat
  maxNumSeqs : Nat
  policy : PolicyName
deriving DecidableEq, Repr

/-- `Scheduler` state: the three queues, the block manager, the armed
deadline flag and the configuration (scheduler.py:336-418). -/
structure SchedState where
  waiting : List Group
  running : List Group
  swapped : List Group
  bm : BlockManager
  reachDdl : Bool
  config : SchedulerConfig
deriving DecidableEq, Repr

/-- `Scheduler.has_unfinished_seqs` (scheduler.py:469-471). -/
def SchedState.hasUnfinishedSeqs (st : SchedState) : Bool :=
  !(st.waiting.isEmpty && st.running.isEmpty && st.swapped.isEmpty)

/-- `ScheduledSequenceGroup` (scheduler.py:149-156); the deadline pass
constructs these with `token_chunk_size=None`. -/
structure ScheduledSeqGroup where
  seqGroup : Group
  tokenChunkSize : Option Nat
deriving DecidableEq, Repr

/-- `SchedulerOutputs` (scheduler.py:159-209), restricted to the fields the
modelled paths populate.  In the deadline branch the source passes the
scalar `0` for the three block-movement lists; that is modelled as the
empty list.  `ignored_seq_groups` receives `ScheduledSequenceGroup`
wrappers in the deadline branch (elsewhere it holds bare groups). -/
structure SchedulerOutputs where
  scheduledSeqGroups : List ScheduledSeqGroup
  numPrefillGroups : Nat
  numBatchedTokens : Int
  blocksToSwapIn : List (Nat × Nat)
  blocksToSwapOut : List (Nat × Nat)
  blocksToCopy : List (Nat × Nat)
  ignoredSeqGroups : List ScheduledSeqGroup
  numLookaheadSlots : Nat
  runningQueueSize : Nat
  preempted : Nat
deriving DecidableEq, Repr

/-- Mark every sequence of a group `FINISHED_STOPPED` (the inner loop of
the deadline branch, scheduler.py:2185-2186). -/
def ddlMark (g : Group) : Group :=
  { g with seqs := g.seqs.map (fun s => { s with status := .finishedStopped }) }

/-- The deadline branch of `Scheduler._schedule_chunked_prefill`
(scheduler.py:2182-2209): mark every sequence of every queued group
`FINISHED_STOPPED`, wrap the groups as `ScheduledSequenceGroup`s with
`token_chunk_size=None`, empty all three queues, and return an empty plan
carrying the wrapped groups in `ignored_seq_groups`. -/
def scheduleChunkedDdl (st : SchedState) : SchedState × SchedulerOutputs :=
  let groups := st.waiting ++ st.running ++ st.swapped
  let marked := groups.map ddlMark
  ({ st with waiting := [], running := [], swapped := [] },
   { scheduledSeqGroups := [],
     numPrefillGroups := 0,
     numBatchedTokens := 0,
     blocksToSwapIn := [],
     blocksToSwapOut := [],
     blocksToCopy := [],
     ignoredSeqGroups := marked.map (fun g => ⟨g, none⟩),
     numLookaheadSlots := 0,
     runningQueueSize := 0,
     preempted := 0 })

/-- `Scheduler._get_num_new_tokens` (scheduler.py:2741-2772) without
chunking: sum `get_num_new_tokens` over the sequences in the given status
(SWAPPED also includes PARTIAL_SWAPPED). -/
def groupNumNewTokens (g : Group) (status : SequenceStatus) : Nat :=
  let seqs :=
    if status == .swapped then g.getSeqs .swapped ++ g.getSeqs .partialSwapped
    else g.getSeqs status
  (seqs.map Seq.getNumNewTokens).sum

/-- The running-queue sort at the top of `Scheduler._schedule_running`
(scheduler.py:1608-1611).  The policy object is always FCFS here
(scheduler.py:2099), but when the configured policy name is
`tfittradeoff` the code sorts with `sorted_by_priority`, whose keys are
all `None` (FCFS inherits the no-op `got_priority`), raising `TypeError`
as soon as two elements are compared.  Otherwise: a stable sort by
descending `now - arrival_time`. -/
def defaultRunningSorted (st : SchedState) (now : Int) :
    Except String (List Group) :=
  if st.config.policy == .tfittradeoff then
    if 2 ≤ st.running.length then
      .error "TypeError: comparison not supported between instances of NoneType"
    else .ok st.running
  else
    .ok (st.running.mergeSort (fun a b =>
      now - b.arrivalTime ≤ now - a.arrivalTime))

/-- The outcome of one `Scheduler._schedule` step: a returned plan, a
raised exception, or control passing into the non-deadline chunked-prefill
scheduling (outside this model). -/
inductive StepResult where
  | plan (st : SchedState) (out : SchedulerOutputs)
  | nonDdlChunked (st : SchedState)
  | exn (msg : String)
deriving DecidableEq, Repr

/-- `Scheduler._schedule_default` (scheduler.py:2065-2160).  The budget
construction and the pre-accounting of running request ids touch only the
iteration-local budget; the scheduler state is unchanged before the first
raise point.  Every control path of this function raises in this source:
with an empty swapped queue, line 2096 calls `_schedule_prefills` without
its required `pending_swapped_rate` argument; otherwise prefills stay
empty and `_schedule_running` runs — an empty (or all-zero-token) running
queue falls through to line 2115, which calls `_schedule_swapped` without
`pending_swapped_rate`, a group with zero new tokens trips the
`_get_num_new_tokens` assertion, and any other group reaches
`_can_append_slots` (scheduler.py:2410), which passes the keyword
`pre_allocated_slots_num` that `BlockSpaceManagerV1.can_append_slots`
does not accept. -/
def scheduleDefault (st : SchedState) (now : Int) : StepResult :=
  if st.swapped.isEmpty then
    .exn "TypeError: _schedule_prefills missing 1 required positional argument: pending_swapped_rate"
  else
    match defaultRunningSorted st now with
    | .error msg => .exn msg
    | .ok sortedRunning =>
      match sortedRunning with
      | [] =>
        .exn "TypeError: _schedule_swapped missing 1 required positional argument: pending_swapped_rate"
      | g :: _ =>
        if groupNumNewTokens g .running == 0 then
          .exn "AssertionError: num_new_tokens must be positive"
        else
          .exn "TypeError: can_append_slots got an unexpected keyword argument pre_allocated_slots_num"

/-- `Scheduler._schedule` (scheduler.py:2387-2392): dispatch on
`chunked_prefill_enabled`.  The deadline flag is consulted only inside the
chunked-prefill path (scheduler.py:2182); its non-deadline remainder is
beyond this model and is returned as an explicit marker. -/
def schedule (st : SchedState) (now : Int) : StepResult :=
  if st.config.chunkedPrefillEnabled then
    if st.reachDdl then
      let (st1, out) := scheduleChunkedDdl st
      .plan st1 out
    else .nonDdlChunked st
  else scheduleDefault st now

/-- The claim's deadline outcome, decided on a scheduler state: the step
returns a plan that schedules nothing, whose ignored list carries exactly
the queued groups (in queue order) with every sequence marked
`FINISHED_STOPPED`, and afterwards `has_unfinished_seqs` is false. -/
def deadlineClaimHolds (st : SchedState) (now : Int) : Bool :=
  match schedule st now with
  | .plan st1 out =>
    let groups := st.waiting ++ st.running ++ st.swapped
    out.scheduledSeqGroups.isEmpty
      && (out.ignoredSeqGroups.map (fun w => w.seqGroup.requestId)
            == groups.map Group.requestId)
      && (out.ignoredSeqGroups.all (fun w =>
            w.seqGroup.seqs.all (fun s => s.status == .finishedStopped)))
      && !st1.hasUnfinishedSeqs
  | _ => false

/-- Remove the first group with the given request id from a queue,
returning it and the remaining queue (the scan plus `remove` of
`Scheduler.abort_seq_group` for a single id). -/
def extractFirstGroup (x : String) : List Group → Option (Group × List Group)
  | [] => none
  | g :: rest =>
    if g.requestId == x then some (g, rest)
    else
      match extractFirstGroup x rest with
      | some (found, rest1) => some (found, g :: rest1)
      | none => none

/-- `BlockSpaceManagerV1._free_block_table` (block_manager_v1.py:820-833)
without a sliding window: free each distinct block of the table through
the allocator of its device (the GPU allocator receives the block type). -/
def BlockManager.freeBlockTable (bm : BlockManager) (blocks : List Blk)
    (bt : BlockType := .normal) : Except String BlockManager :=
  match blocks with
  | [] => .ok bm
  | b :: rest =>
    match b.device with
    | .gpu =>
      match bm.gpu.free b.number bt with
      | .error e => .error e
      | .ok gpu1 => BlockManager.freeBlockTable { bm with gpu := gpu1 } rest bt
    | .cpu =>
      match bm.cpu.free b.number with
      | .error e => .error e
      | .ok cpu1 => BlockManager.freeBlockTable { bm with cpu := cpu1 } rest bt

/-- `BlockSpaceManagerV1.free` (block_manager_v1.py:835-849) for a NORMAL
sequence: a no-op when the sequence has no table (already freed or never
scheduled), otherwise free the deduplicated table and detach it. -/
def BlockManager.freeSeq (bm : BlockManager) (s : Seq) :
    Except String (BlockManager × Seq) :=
  match s.blockTable with
  | none => .ok (bm, s)
  | some table =>
    let bt : BlockType := if s.seqType == .temp then .shared else .normal
    match bm.freeBlockTable table.dedup bt with
    | .error e => .error e
    | .ok bm1 => .ok (bm1, { s with blockTable := none })

/-- The per-group body of `Scheduler.abort_seq_group`
(scheduler.py:460-467): every unfinished sequence of the removed group is
marked `FINISHED_ABORTED` and freed (the marked sequences leave the
scheduler state together with their group). -/
def abortFreeSeqs (bm : BlockManager) : List Seq → Except String BlockManager
  | [] => .ok bm
  | s :: rest =>
    match bm.freeSeq s with
    | .error e => .error e
    | .ok (bm1, _) => abortFreeSeqs bm1 rest

def abortFreeGroup (bm : BlockManager) (g : Group) : Except String BlockManager :=
  abortFreeSeqs bm (g.seqs.filter (fun s => !s.isFinished))

/-- `Scheduler.abort_seq_group` (scheduler.py:433-467) for a single
request id: the id set starts as `{x}`, so the scan over
waiting/running/swapped removes the first matching group (after which the
set is empty and the remaining scans match nothing), marks its unfinished
sequences aborted and frees their block tables. -/
def abortSeqGroup (st : SchedState) (x : String) : Except String SchedState :=
  match extractFirstGroup x st.waiting with
  | some (g, w1) =>
    match abortFreeGroup st.bm g with
    | .ok bm1 => .ok { st with waiting := w1, bm := bm1 }
    | .error e => .error e
  | none =>
    match extractFirstGroup x st.running with
    | some (g, r1) =>
      match abortFreeGroup st.bm g with
      | .ok bm1 => .ok { st with running := r1, bm := bm1 }
      | .error e => .error e
    | none =>
      match extractFirstGroup x st.swapped with
      | some (g, s1) =>
        match abortFreeGroup st.bm g with
        | .ok bm1 => .ok { st with swapped := s1, bm := bm1 }
        | .error e => .error e
      | none => .ok st

/-- The request ids present in any of the three queues. -/
def SchedState.allRequestIds (st : SchedState) : List String :=
  (st.waiting ++ st.running ++ st.swapped).map Group.requestId

/-- `LLMEngine` state: the scheduler list and the sequence-id counter. -/
structure EngineState where
  schedulers : List SchedState
  seqCounter : Nat
  blockSize : Nat
deriving DecidableEq, Repr

/-- First index of the minimum of a list (`costs.index(min(costs))`). -/
def argminIdx (l : List Nat) : Nat :=
  match l.enum.foldl
      (fun acc p =>
        match acc with
        | none => some p
        | some q => if p.2 < q.2 then some p else some q) none with
  | some q => q.1
  | none => 0

/-- `Scheduler.get_num_unfinished_seq_groups` (scheduler.py:473-474). -/
def SchedState.numUnfinishedSeqGroups (st : SchedState) : Nat :=
  st.waiting.length + st.running.length + st.swapped.length

/-- `LLMEngine.add_request` together with `_add_processed_request`
(llm_engine.py:616-688, 534-580): build one WAITING sequence and a
`SequenceGroup`, then append the group to the waiting queue of the
scheduler with the fewest unfinished groups.  No duplicate-id check is
performed anywhere on this path. -/
def addRequest (e : EngineState) (requestId : String)
    (promptTokenIds : List Nat) (params : Option SamplingParams)
    (arrivalTime : Int) : EngineState :=
  let seq : Seq :=
    { seqId := e.seqCounter
      blockSize := e.blockSize
      promptTokenIds := promptTokenIds
      outputTokenIds := []
      numComputedTokens := 0
      stage := .prefill
      status := .waiting
      seqType := .normal
      swappedOutBlockNums := 0
      eosTokenProbPos := []
      blockTable := none }
  let group : Group :=
    { requestId := requestId
      seqs := [seq]
      arrivalTime := arrivalTime
      samplingParams := params
      waitingIterNums := 0
      firstScheduledTime := 0
      currentPriority := none
      promoted := 0
      priorityRate := 1 }
  let costs := e.schedulers.map SchedState.numUnfinishedSeqGroups
  let idx := argminIdx costs
  match e.schedulers.get? idx with
  | none => { e with seqCounter := e.seqCounter + 1 }
  | some sc =>
    { e with
      schedulers := e.schedulers.set idx { sc with waiting := sc.waiting ++ [group] },
      seqCounter := e.seqCounter + 1 }

/-- Count the groups carrying a request id in one scheduler. -/
def SchedState.countRequestId (sc : SchedState) (x : String) : Nat :=
  ((sc.waiting ++ sc.running ++ sc.swapped).filter
    (fun g => g.requestId == x)).length

/-- Count the groups carrying a request id across all schedulers. -/
def EngineState.countRequestId (e : EngineState) (x : String) : Nat :=
  (e.schedulers.map (fun sc => sc.countRequestId x)).sum

/-- The `SkipJoinMLFQ` policy object (policy.py:74-106): the constructor
stores `quantum_ratio` but hardcodes `starve_limit = 5` and
`min_quantum = 2` regardless of its arguments. -/
structure SkipJoinMLFQPolicy where
  quantumRatio : Nat := 2
  starveLimit : Nat := 5
  minQuantum : Nat := 2
deriving DecidableEq, Repr

/-- The `while quantum <= first_iteration_time` loop of
`SkipJoinMLFQ.get_highest_priority` (policy.py:81-89), fuelled: with
`quantum_ratio = 2` the quantum doubles each iteration, so `L + 2` steps
always suffice. -/
def getHighestPriorityAux : Nat → Nat → Nat → Nat → Nat → Nat
  | 0, level, _, _, _ => level
  | fuel + 1, level, quantum, ratio, l =>
    if quantum ≤ l then getHighestPriorityAux fuel (level + 1) (quantum * ratio) ratio l
    else level

/-- `SkipJoinMLFQ.get_highest_priority`. -/
def SkipJoinMLFQPolicy.getHighestPriority (p : SkipJoinMLFQPolicy) (l : Nat) : Nat :=
  getHighestPriorityAux (l + 2) 1 p.minQuantum p.quantumRatio l

/-- `SkipJoinMLFQ.get_priority` (policy.py:91-106), returning the score
together with the updated group: an unassigned (falsy) `current_priority`
is set from the prompt length; otherwise the level is demoted when the
in-level time exceeds `2^(level-1) * min_quantum` (and the group was never
promoted), or reset to the top with the `promoted` flag once
`waiting_iter_nums` reaches the starvation limit.  Wall-clock values are
modelled as integers. -/
def skipJoinGetPriority (p : SkipJoinMLFQPolicy) (now : Int) (g : Group) :
    Int × Group :=
  let inputLength := g.promptTokenIds.length
  if g.currentPriority.getD 0 == 0 then
    let cp := p.getHighestPriority inputLength
    (-(cp : Int), { g with currentPriority := some cp })
  else
    let cp := g.currentPriority.getD 0
    if now - g.firstScheduledTime > ((2 ^ (cp - 1)) * p.minQuantum : Nat)
        && g.promoted == 0 then
      (-((cp + 1 : Nat) : Int), { g with currentPriority := some (cp + 1) })
    else if p.starveLimit ≤ g.waitingIterNums then
      (-(1 : Int), { g with currentPriority := some 1, promoted := 1 })
    else (-(cp : Int), g)

/-- `FCFS.get_priority` (policy.py:54-61), returning the (unchanged) group
to expose its frame. -/
def fcfsGetPriority (now : Int) (g : Group) : Int × Group :=
  (now - g.arrivalTime, g)

/-- Rational mean of a list of integers (`np.mean`; real arithmetic is
modelled exactly over ℚ). -/
def intMean (l : List Int) : ℚ :=
  (l.sum : ℚ) / (l.length : ℚ)

/-- `TFITTradeoff._get_waiting_priority` (policy.py:205-233), returning
the score together with the updated group: collect the EOS-token rank
windows of all sequences, form `priority_rate` from the minimum against
32000 (or the mean of the ranks past the first ten), and when it is
positive store `(32000 - priority_rate)/32000` into the group's
`priority_rate` before scoring; otherwise score from the average rate
without touching the group. -/
def tfitWaitingPriority (avgPriorityRate : ℚ) (g : Group) : ℚ × Group :=
  let allEosTokenPos : List Int := g.seqs.flatMap Seq.getEosTokenPos
  let minEosTokenPos : Int := allEosTokenPos.min?.getD (-1)
  let maxEosTokenPos : ℚ :=
    if allEosTokenPos.length < 10 then 32000
    else intMean (allEosTokenPos.drop 10)
  let priorityRate : ℚ := (maxEosTokenPos - (minEosTokenPos : ℚ)) / maxEosTokenPos
  if 0 < priorityRate then
    let g1 := { g with priorityRate := (32000 - priorityRate) / 32000 }
    (g1.priorityRate * ((g.seqLen : ℚ) + (g.waitingIterNums : ℚ)) / (g.maxLength : ℚ),
     g1)
  else
    (avgPriorityRate * (((g.seqLen : ℚ) + (g.waitingIterNums : ℚ)) / (g.maxLength : ℚ)),
     g)

/-- Equivalence of sequences up to physical block numbers: identity,
tokens, computed count, status, stage, type and swap counter agree, and
the block tables have the same length with the same device at every
position (the block numbers may differ). -/
def SeqEquiv (s s2 : Seq) : Prop :=
  s2.seqId = s.seqId ∧
  s2.blockSize = s.blockSize ∧
  s2.promptTokenIds = s.promptTokenIds ∧
  s2.outputTokenIds = s.outputTokenIds ∧
  s2.numComputedTokens = s.numComputedTokens ∧
  s2.stage = s.stage ∧
  s2.status = s.status ∧
  s2.seqType = s.seqType ∧
  s2.swappedOutBlockNums = s.swappedOutBlockNums ∧
  s2.eosTokenProbPos = s.eosTokenProbPos ∧
  ∃ t t2, s.blockTable = some t ∧ s2.blockTable = some t2 ∧
    t2.length = t.length ∧ t2.map Blk.device = t.map Blk.device

/-- Equivalence of groups up to physical block numbers. -/
def GroupEquiv (g g2 : Group) : Prop :=
  g2.requestId = g.requestId ∧
  g2.arrivalTime = g.arrivalTime ∧
  g2.samplingParams = g.samplingParams ∧
  List.Forall₂ SeqEquiv g.seqs g2.seqs

/-- The number of block-movement pairs a group swap-out reports (used to
state concrete counterexamples). -/
def swapOutPairCount (bm : BlockManager) (g : Group) (n : Int) : Option Nat :=
  match bm.swapOut g n with
  | .ok (_, _, pairs) => some pairs.length
  | .error _ => none

/-! Concrete states used by counterexamples and witnesses. -/

/-- A sequence template for concrete states (block size 4, waiting,
prompt of the given length). -/
def mkSeq (seqId : Nat) (promptLen : Nat) : Seq :=
  { seqId := seqId
    blockSize := 4
    promptTokenIds := List.replicate promptLen 7
    outputTokenIds := []
    numComputedTokens := 0
    stage := .prefill
    status := .waiting
    seqType := .normal
    swappedOutBlockNums := 0
    eosTokenProbPos := []
    blockTable := none }

/-- A group template for concrete states. -/
def mkGroup (requestId : String) (seqs : List Seq) : Group :=
  { requestId := requestId
    seqs := seqs
    arrivalTime := 0
    samplingParams := none
    waitingIterNums := 0
    firstScheduledTime := 0
    currentPriority := none
    promoted := 0
    priorityRate := 1 }

/-- A GPU allocator with the given free list and ref counts. -/
def mkGpuAlloc (numBlocks : Nat) (freeList : List Nat)
    (ref : List (Nat × Nat)) : UncachedAllocator :=
  { device := .gpu
    numBlocks := numBlocks
    numSharedBlocks := 0
    freeList := freeList
    freeSharedList := []
    ref := ref }

/-- A CPU allocator with the given free list and ref counts. -/
def mkCpuAlloc (numBlocks : Nat) (freeList : List Nat)
    (ref : List (Nat × Nat)) : UncachedAllocator :=
  { device := .cpu
    numBlocks := numBlocks
    numSharedBlocks := 0
    freeList := freeList
    freeSharedList := []
    ref := ref }

/-- C1 counterexample: 10 GPU blocks, watermark 1 block, a fully free
device and a prompt needing exactly 10 blocks. -/
def c1Bm : BlockManager :=
  { blockSize := 4
    numTotalGpuBlocks := 10
    numTotalCpuBlocks := 5
    numSharedBlocks := 0
    watermarkBlocks := 1
    gpu := mkGpuAlloc 10 [9, 8, 7, 6, 5, 4, 3, 2, 1, 0] []
    cpu := mkCpuAlloc 5 [4, 3, 2, 1, 0] [] }

/-- C1 counterexample group: one waiting sequence of 40 tokens
(10 blocks of 4). -/
def c1Group : Group := mkGroup "r1" [mkSeq 0 40]

/-- C3 state: free list `[3]`; block 0 is shared (ref 2), blocks 1 and 2
are exclusively held. -/
def c3Bm : BlockManager :=
  { blockSize := 4
    numTotalGpuBlocks := 4
    numTotalCpuBlocks := 4
    numSharedBlocks := 0
    watermarkBlocks := 0
    gpu := mkGpuAlloc 4 [3] [(0, 2), (1, 1), (2, 1)]
    cpu := mkCpuAlloc 4 [3, 2, 1, 0] [] }

/-- C3 COW sequence: 8 tokens over table `[1, 0]`, shared last block 0. -/
def c3SeqCow : Seq :=
  { mkSeq 0 6 with
    status := .running
    stage := .decode
    outputTokenIds := [9, 9]
    blockTable := some [⟨.gpu, 1⟩, ⟨.gpu, 0⟩] }

/-- C3 new-logical-block sequence: 5 tokens but only one table entry. -/
def c3SeqGrow : Seq :=
  { mkSeq 1 4 with
    status := .running
    stage := .decode
    outputTokenIds := [9]
    blockTable := some [⟨.gpu, 2⟩] }

/-- C4 state: two exclusively held GPU blocks, three free host blocks. -/
def c4Bm : BlockManager :=
  { blockSize := 4
    numTotalGpuBlocks := 4
    numTotalCpuBlocks := 3
    numSharedBlocks := 0
    watermarkBlocks := 0
    gpu := mkGpuAlloc 4 [3, 2] [(0, 1), (1, 1)]
    cpu := mkCpuAlloc 3 [2, 1, 0] [] }

/-- C4 group: one running sequence holding blocks `[0, 1]`, none swapped
yet. -/
def c4Group : Group :=
  mkGroup "r4"
    [{ mkSeq 0 8 with
       status := .running
       stage := .decode
       blockTable := some [⟨.gpu, 0⟩, ⟨.gpu, 1⟩] }]

/-- C8 counterexample scheduler state: default (non-chunked) mode, the
deadline flag set, one waiting group. -/
def c8DefaultState : SchedState :=
  { waiting := [mkGroup "r8" [mkSeq 0 8]]
    running := []
    swapped := []
    bm := c4Bm
    reachDdl := true
    config :=
      { chunkedPrefillEnabled := false
        maxNumBatchedTokens := 2048
        maxNumSeqs := 256
        policy := .fcfs } }

/-- C8 witness scheduler state: chunked-prefill mode at the deadline with
one group in each queue. -/
def c8ChunkedState : SchedState :=
  { waiting := [mkGroup "w" [mkSeq 0 8]]
    running := [mkGroup "r" [{ mkSeq 1 8 with status := .running }]]
    swapped := [mkGroup "s" [{ mkSeq 2 8 with status := .swapped }]]
    bm := c4Bm
    reachDdl := true
    config :=
      { chunkedPrefillEnabled := true
        maxNumBatchedTokens := 2048
        maxNumSeqs := 256
        policy := .fcfs } }

/-- C9 counterexample group: no priority level assigned yet. -/
def c9Group : Group := mkGroup "r9" [mkSeq 0 1]

/-- C10 sample uncached allocator (no block has a positive ref count). -/
def c10Alloc : UncachedAllocator := mkGpuAlloc 2 [1, 0] []

/-- C10 sample cached allocator and block. -/
def c10Cached : CachedAllocator :=
  { numBlocks := 1, currentNumBlocks := 0, cachedBlocks := [], evictor := [] }

/-- C10 sample cached block with ref count zero. -/
def c10CBlk : CBlk := { number := 0, blockHash := 7, refCount := 0 }

/-- C6 scheduler state: one group per queue, the running one holding two
GPU blocks. -/
def c6State : SchedState :=
  { waiting := [mkGroup "w6" [mkSeq 0 8]]
    running :=
      [mkGroup "r6"
        [{ mkSeq 1 8 with
           status := .running
           stage := .decode
           blockTable := some [⟨.gpu, 0⟩, ⟨.gpu, 1⟩] }]]
    swapped := []
    bm := c4Bm
    reachDdl := false
    config :=
      { chunkedPrefillEnabled := true
        maxNumBatchedTokens := 2048
        maxNumSeqs := 256
        policy := .fcfs } }

/-- The state `abort_seq_group` leaves after removing request `r6` from
`c6State` (the running group gone, its two blocks back on the free list). -/
def c6Aborted : SchedState :=
  { waiting := [mkGroup "w6" [mkSeq 0 8]]
    running := []
    swapped := []
    bm :=
      { blockSize := 4
        numTotalGpuBlocks := 4
        numTotalCpuBlocks := 3
        numSharedBlocks := 0
        watermarkBlocks := 0
        gpu := mkGpuAlloc 4 [1, 0, 3, 2] [(0, 0), (1, 0)]
        cpu := mkCpuAlloc 3 [2, 1, 0] [] }
    reachDdl := false
    config :=
      { chunkedPrefillEnabled := true
        maxNumBatchedTokens := 2048
        maxNumSeqs := 256
        policy := .fcfs } }

/-- C7 engine with one empty scheduler. -/
def c7Engine : EngineState :=
  { schedulers :=
      [{ waiting := []
         running := []
         swapped := []
         bm := c4Bm
         reachDdl := false
         config :=
           { chunkedPrefillEnabled := true
             maxNumBatchedTokens := 2048
             maxNumSeqs := 256
             policy := .fcfs } }]
    seqCounter := 0
    blockSize := 16 }

/-- The scheduler of `c7Engine` after one `addRequest` of id `rr`. -/
def c7Sched1 : SchedState :=
  { waiting :=
      [{ requestId := "rr"
         seqs :=
           [{ seqId := 0
              blockSize := 16
              promptTokenIds := [1, 2]
              outputTokenIds := []
              numComputedTokens := 0
              stage := .prefill
              status := .waiting
              seqType := .normal
              swappedOutBlockNums := 0
              eosTokenProbPos := []
              blockTable := none }]
         arrivalTime := 0
         samplingParams := none
         waitingIterNums := 0
         firstScheduledTime := 0
         currentPriority := none
         promoted := 0
         priorityRate := 1 }]
    running := []
    swapped := []
    bm := c4Bm
    reachDdl := false
    config :=
      { chunkedPrefillEnabled := true
        maxNumBatchedTokens := 2048
        maxNumSeqs := 256
        policy := .fcfs } }

/-- C2 state: a running group of two sequences sharing nothing, four free
host blocks, the device blocks `[0, 1]` and `[2]` in use. -/
def c2Bm : BlockManager :=
  { blockSize := 4
    numTotalGpuBlocks := 4
    numTotalCpuBlocks := 4
    numSharedBlocks := 0
    watermarkBlocks := 0
    gpu := mkGpuAlloc 4 [3] [(0, 1), (1, 1), (2, 1)]
    cpu := mkCpuAlloc 4 [3, 2, 1, 0] [] }

/-- C2 group: two running decode sequences with device-resident tables. -/
def c2Group : Group :=
  mkGroup "r2"
    [{ mkSeq 0 8 with
       status := .running
       stage := .decode
       outputTokenIds := [5]
       numComputedTokens := 8
       blockTable := some [⟨.gpu, 0⟩, ⟨.gpu, 1⟩] },
     { mkSeq 1 4 with
       status := .running
       stage := .decode
       outputTokenIds := [6]
       numComputedTokens := 4
       blockTable := some [⟨.gpu, 2⟩] }]

/-- The block manager produced by the C2 swap-out. -/
def c2Bm1 : BlockManager :=
  { blockSize := 4, numTotalGpuBlocks := 4, numTotalCpuBlocks := 4,
    numSharedBlocks := 0, watermarkBlocks := 0,
    gpu := { device := .gpu, numBlocks := 4, numSharedBlocks := 0,
             freeList := [2, 1, 0, 3], freeSharedList := [],
             ref := [(0, 0), (1, 0), (2, 0)] },
    cpu := { device := .cpu, numBlocks := 4, numSharedBlocks := 0,
             freeList := [0], freeSharedList := [],
             ref := [(3, 1), (2, 1), (1, 1)] } }

/-- The group produced by the C2 swap-out: both sequences SWAPPED with
host-resident tables. -/
def c2G1 : Group :=
  { requestId := "r2",
    seqs := [{ seqId := 0, blockSize := 4, promptTokenIds := [7, 7, 7, 7, 7, 7, 7, 7],
               outputTokenIds := [5], numComputedTokens := 8, stage := .decode,
               status := .swapped, seqType := .normal, swappedOutBlockNums := 2,
               eosTokenProbPos := [],
               blockTable := some [⟨.cpu, 3⟩, ⟨.cpu, 2⟩] },
             { seqId := 1, blockSize := 4, promptTokenIds := [7, 7, 7, 7],
               outputTokenIds := [6], numComputedTokens := 4, stage := .decode,
               status := .swapped, seqType := .normal, swappedOutBlockNums := 1,
               eosTokenProbPos := [],
               blockTable := some [⟨.cpu, 1⟩] }],
    arrivalTime := 0, samplingParams := none, waitingIterNums := 0,
    firstScheduledTime := 0, currentPriority := none, promoted := 0,
    priorityRate := 1 }

/-- The block manager produced by the C2 swap-in. -/
def c2Bm2 : BlockManager :=
  { blockSize := 4, numTotalGpuBlocks := 4, numTotalCpuBlocks := 4,
    numSharedBlocks := 0, watermarkBlocks := 0,
    gpu := { device := .gpu, numBlocks := 4, numSharedBlocks := 0,
             freeList := [3], freeSharedList := [],
             ref := [(0, 1), (1, 1), (2, 1)] },
    cpu := { device := .cpu, numBlocks := 4, numSharedBlocks := 0,
             freeList := [1, 2, 3, 0], freeSharedList := [],
             ref := [(3, 0), (2, 0), (1, 0)] } }

/-- The group produced by the C2 swap-in: both sequences RUNNING again
with device-resident tables (the physical numbers differ from the
originals). -/
def c2G2 : Group :=
  { requestId := "r2",
    seqs := [{ seqId := 0, blockSize := 4, promptTokenIds := [7, 7, 7, 7, 7, 7, 7, 7],
               outputTokenIds := [5], numComputedTokens := 8, stage := .decode,
               status := .running, seqType := .normal, swappedOutBlockNums := 0,
               eosTokenProbPos := [],
               blockTable := some [⟨.gpu, 2⟩, ⟨.gpu, 1⟩] },
             { seqId := 1, blockSize := 4, promptTokenIds := [7, 7, 7, 7],
               outputTokenIds := [6], numComputedTokens := 4, stage := .decode,
               status := .running, seqType := .normal, swappedOutBlockNums := 0,
               eosTokenProbPos := [],
               blockTable := some [⟨.gpu, 0⟩] }],
    arrivalTime := 0, samplingParams := none, waitingIterNums := 0,
    firstScheduledTime := 0, currentPriority := none, promoted := 0,
    priorityRate := 1 }

/-- The block manager produced by `swap_out(c4Group, 5)`. -/
def c4Bm1 : BlockManager :=
  { blockSize := 4, numTotalGpuBlocks := 4, numTotalCpuBlocks := 3,
    numSharedBlocks := 0, watermarkBlocks := 0,
    gpu := { device := .gpu, numBlocks := 4, numSharedBlocks := 0,
             freeList := [1, 0, 3, 2], freeSharedList := [],
             ref := [(0, 0), (1, 0)] },
    cpu := { device := .cpu, numBlocks := 3, numSharedBlocks := 0,
             freeList := [0], freeSharedList := [],
             ref := [(2, 1), (1, 1)] } }

/-- The group produced by `swap_out(c4Group, 5)`: although 5 blocks were
requested, only the 2 blocks the table holds moved, and the counter
stops at 2. -/
def c4G1 : Group :=
  { requestId := "r4",
    seqs := [{ seqId := 0, blockSize := 4, promptTokenIds := [7, 7, 7, 7, 7, 7, 7, 7],
               outputTokenIds := [], numComputedTokens := 0, stage := .decode,
               status := .running, seqType := .normal, swappedOutBlockNums := 2,
               eosTokenProbPos := [],
               blockTable := some [⟨.cpu, 2⟩, ⟨.cpu, 1⟩] }],
    arrivalTime := 0, samplingParams := none, waitingIterNums := 0,
    firstScheduledTime := 0, currentPriority := none, promoted := 0,
    priorityRate := 1 }

/-- All sequence fields except the status, the swap counter and the block
table. -/
def SeqFieldsEqCore (s s1 : Seq) : Prop :=
  s1.seqId = s.seqId ∧ s1.blockSize = s.blockSize ∧
  s1.promptTokenIds = s.promptTokenIds ∧ s1.outputTokenIds = s.outputTokenIds ∧
  s1.numComputedTokens = s.numComputedTokens ∧ s1.stage = s.stage ∧
  s1.seqType = s.seqType ∧ s1.eosTokenProbPos = s.eosTokenProbPos

/-- All sequence fields except the swap counter and the block table. -/
def SeqFieldsEq (s s1 : Seq) : Prop :=
  SeqFieldsEqCore s s1 ∧ s1.status = s.status

/-- Postcondition of `Scheduler._swap_out` with `-1` on one RUNNING
sequence: as `SwapOutFullRel`, but the wrapper has moved the status to
SWAPPED. -/
def SwapOutFullFlipRel (s s1 : Seq) : Prop :=
  SeqFieldsEqCore s s1 ∧ s1.status = SequenceStatus.swapped ∧
  ∃ t t1, s.blockTable = some t ∧ s1.blockTable = some t1 ∧
    t1.length = t.length ∧ (∀ b ∈ t1, b.device = Device.cpu) ∧
    s1.swappedOutBlockNums = min s.nBlocks (s.swappedOutBlockNums + t.length)

/-- Postcondition of `Scheduler._swap_in` on one SWAPPED sequence: as
`SwapInRel`, but the wrapper has moved the status to RUNNING. -/
def SwapInFlipRel (s s1 : Seq) : Prop :=
  SeqFieldsEqCore s s1 ∧ s1.status = SequenceStatus.running ∧
  s1.swappedOutBlockNums = 0 ∧
  ∃ t t1, s.blockTable = some t ∧ s1.blockTable = some t1 ∧
    t1.length = t.length ∧ (∀ b ∈ t1, b.device = Device.gpu)

/-- Postcondition of a full (`-1`) per-sequence swap-out: data untouched,
every table entry now host-resident with the length preserved, and the
swap counter advanced by the table length, capped at `n_blocks`. -/
def SwapOutFullRel (s s1 : Seq) : Prop :=
  SeqFieldsEq s s1 ∧
  ∃ t t1, s.blockTable = some t ∧ s1.blockTable = some t1 ∧
    t1.length = t.length ∧ (∀ b ∈ t1, b.device = Device.cpu) ∧
    s1.swappedOutBlockNums = min s.nBlocks (s.swappedOutBlockNums + t.length)

/-- Postcondition of a partial (`n ≥ 1`) per-sequence swap-out: the
slice `[counter, min(counter + n, len))` is replaced by host blocks, the
rest of the table is untouched, and the counter advances by `n` capped at
`n_blocks`. -/
def SwapOutPartialRel (n : Nat) (s s1 : Seq) : Prop :=
  SeqFieldsEq s s1 ∧
  ∃ t repl, s.blockTable = some t ∧
    s1.blockTable = some (t.take s.swappedOutBlockNums ++ repl ++
      t.drop (min (s.swappedOutBlockNums + n) t.length)) ∧
    repl.length = min (s.swappedOutBlockNums + n) t.length - s.swappedOutBlockNums ∧
    (∀ b ∈ repl, b.device = Device.cpu) ∧
    s1.swappedOutBlockNums = min s.nBlocks (s.swappedOutBlockNums + n)

/-- Postcondition of a per-sequence swap-in: data untouched, the counter
reset, and every table entry device-resident with the length preserved. -/
def SwapInRel (s s1 : Seq) : Prop :=
  SeqFieldsEq s s1 ∧ s1.swappedOutBlockNums = 0 ∧
  ∃ t t1, s.blockTable = some t ∧ s1.blockTable = some t1 ∧
    t1.length = t.length ∧ (∀ b ∈ t1, b.device = Device.gpu)

end VllmModel

namespace VllmModel

/-! Helper lemmas. -/

theorem lookupRef_setRef_self (m : List (Nat × Nat)) (k v : Nat) :
    lookupRef (setRef m k v) k = v := by
  induction m with
  | nil => simp [setRef, lookupRef]
  | cons p rest ih =>
    by_cases h : p.1 = k
    · simp [setRef, lookupRef, h]
    · simp only [setRef, lookupRef]
      rw [if_neg (by simpa using h)]
      simp only [lookupRef]
      rw [if_neg (by simpa using h)]
      exact ih

theorem lookupRef_setRef_ne (m : List (Nat × Nat)) (k v k2 : Nat) (h : k2 ≠ k) :
    lookupRef (setRef m k v) k2 = lookupRef m k2 := by
  induction m with
  | nil => simp [setRef, lookupRef, Ne.symm h]
  | cons p rest ih =>
    by_cases hp : p.1 = k
    · simp only [setRef]
      rw [if_pos (by simpa using hp)]
      simp only [lookupRef]
      rw [if_neg (by simpa using (Ne.symm h)), if_neg (by simp [hp, Ne.symm h])]
    · simp only [setRef]
      rw [if_neg (by simpa using hp)]
      by_cases hpk : p.1 = k2
      · simp [lookupRef, hpk]
      · simp only [lookupRef]
        rw [if_neg (by simpa using hpk), if_neg (by simpa using hpk)]
        exact ih

/-- C1 (counterexample): with 10 device blocks, a one-block watermark and
a fully free device, a prompt needing exactly 10 blocks fits on the whole
device (`need ≤ total`, so the claim demands Later because
`free − need = 0 < watermark`), yet `can_allocate` answers Never: its
Never test uses `gpu_block_capacity = total − watermark − shared`, not the
whole device. -/
theorem can_allocate_never_counterexample :
    BlockManager.canAllocate c1Bm c1Group = .ok .never ∧
    (mkSeq 0 40).nBlocks ≤ c1Bm.numTotalGpuBlocks ∧
    (c1Bm.gpu.numFree : Int) - ((mkSeq 0 40).nBlocks : Int) < (c1Bm.watermarkBlocks : Int) := by
  refine ⟨rfl, by decide, by decide⟩

/-- C1 (amended): for a group with a waiting sequence, `can_allocate`
returns Never exactly when the required block count exceeds
`gpu_block_capacity = total − watermark − shared`; otherwise it returns Ok
exactly when the free count minus the need is at least the watermark
(equality included), and Later otherwise. -/
theorem can_allocate_spec (bm : BlockManager) (g : Group) (s : Seq) (rest : List Seq)
    (hw : g.getSeqs .waiting = s :: rest) :
    (bm.canAllocate g = .ok .never ↔ bm.gpuBlockCapacity < (s.nBlocks : Int))
  ∧ (bm.canAllocate g = .ok .ok ↔
      ((s.nBlocks : Int) ≤ bm.gpuBlockCapacity ∧
       (bm.watermarkBlocks : Int) ≤ (bm.gpu.numFree : Int) - (s.nBlocks : Int)))
  ∧ (bm.canAllocate g = .ok .later ↔
      ((s.nBlocks : Int) ≤ bm.gpuBlockCapacity ∧
       (bm.gpu.numFree : Int) - (s.nBlocks : Int) < (bm.watermarkBlocks : Int)))
  ∧ ((bm.gpu.numFree : Int) - (s.nBlocks : Int) = (bm.watermarkBlocks : Int) →
      (s.nBlocks : Int) ≤ bm.gpuBlockCapacity → bm.canAllocate g = .ok .ok) := by
  simp only [BlockManager.canAllocate, hw]
  split_ifs with h1 h2
  all_goals refine ⟨?_, ?_, ?_, ?_⟩
  all_goals simp_all
  all_goals omega

/-- C1 witness for `can_allocate_spec`: a prompt needing 2 of 10 blocks on
a fully free device with a one-block watermark is admitted. -/
theorem can_allocate_spec_witness :
    BlockManager.canAllocate c1Bm (mkGroup "w1" [mkSeq 0 8]) = .ok .ok :=
  (can_allocate_spec c1Bm (mkGroup "w1" [mkSeq 0 8]) (mkSeq 0 8) [] (by decide)).2.1.mpr
    (by decide)

/-- C5: `SchedulingBudget.add_num_batched_tokens` and
`SchedulingBudget.add_num_seqs` are idempotent per request id — a second
call with the same id (any token or sequence count) leaves the budget,
and in particular its running totals, exactly as after the first call. -/
theorem budget_add_idempotent (b : SchedulingBudget) (reqId : String) (n m : Int) :
    ((b.addNumBatchedTokens reqId n).addNumBatchedTokens reqId m
        = b.addNumBatchedTokens reqId n ∧
      ((b.addNumBatchedTokens reqId n).addNumBatchedTokens reqId m).numBatchedTokens
        = (b.addNumBatchedTokens reqId n).numBatchedTokens)
  ∧ ((b.addNumSeqs reqId n).addNumSeqs reqId m = b.addNumSeqs reqId n ∧
      ((b.addNumSeqs reqId n).addNumSeqs reqId m).numCurrSeqs
        = (b.addNumSeqs reqId n).numCurrSeqs) := by
  constructor
  · constructor
    · by_cases h : reqId ∈ b.requestIdsNumBatchedTokens <;>
        simp [SchedulingBudget.addNumBatchedTokens, h]
    · by_cases h : reqId ∈ b.requestIdsNumBatchedTokens <;>
        simp [SchedulingBudget.addNumBatchedTokens, h]
  · constructor
    · by_cases h : reqId ∈ b.requestIdsNumCurrSeqs <;>
        simp [SchedulingBudget.addNumSeqs, h]
    · by_cases h : reqId ∈ b.requestIdsNumCurrSeqs <;>
        simp [SchedulingBudget.addNumSeqs, h]

/-- C10: freeing a block whose ref count is already zero raises a double
free error in both allocators, and the failed call leaves the allocator
state (free lists, cache, evictor) unchanged. -/
theorem double_free_raises (a : UncachedAllocator) (bn : Nat)
    (ca : CachedAllocator) (b : CBlk)
    (h1 : lookupRef a.ref bn = 0) (h2 : b.refCount = 0) :
    a.free bn = .error "Double free! Block is already freed." ∧
    a.runFree bn = a ∧
    ca.free b = .error "Double free! Block is already freed." ∧
    ca.runFree b = ca := by
  refine ⟨?_, ?_, ?_, ?_⟩ <;>
    simp [UncachedAllocator.free, UncachedAllocator.runFree,
      CachedAllocator.free, CachedAllocator.runFree, h1, h2]

/-- C10 witness: a concrete allocator pair with a ref-count-zero block. -/
theorem double_free_raises_witness :
    c10Alloc.free 0 = .error "Double free! Block is already freed." ∧
    c10Alloc.runFree 0 = c10Alloc ∧
    c10Cached.free c10CBlk = .error "Double free! Block is already freed." ∧
    c10Cached.runFree c10CBlk = c10Cached :=
  double_free_raises c10Alloc 0 c10Cached c10CBlk rfl rfl

theorem sum_map_set {α : Type} (f : α → Nat) :
    ∀ (l : List α) (i : Nat) (v sc : α), l.get? i = some sc →
      ((l.set i v).map f).sum + f sc = (l.map f).sum + f v := by
  intro l
  induction l with
  | nil => intro i v sc h; simp at h
  | cons a rest ih =>
    intro i v sc h
    cases i with
    | zero =>
      simp only [List.get?] at h
      cases h
      simp [List.set]
      omega
    | succ j =>
      simp only [List.get?] at h
      have ihj := ih j v sc h
      simp only [List.set, List.map, List.sum_cons]
      omega

/-- C7 (counterexample): adding the same request id twice at the engine
leaves two groups with that id in the waiting queue — the second call
neither fails nor skips the enqueue, refuting the DuplicateId rejection. -/
theorem add_request_duplicate_counterexample :
    EngineState.countRequestId
        (addRequest (addRequest c7Engine "rr" [1, 2] none 0) "rr" [1, 2] none 1) "rr"
      = 2 := by
  decide

theorem countRequestId_append_group (sc : SchedState) (x : String) (gnew : Group)
    (h : gnew.requestId = x) :
    SchedState.countRequestId { sc with waiting := sc.waiting ++ [gnew] } x
      = sc.countRequestId x + 1 := by
  simp [SchedState.countRequestId, List.filter_append, h]
  omega

theorem engine_set_count (e : EngineState) (x : String) (i : Nat)
    (sc : SchedState) (gnew : Group)
    (hget : e.schedulers.get? i = some sc) (hx : gnew.requestId = x) :
    ((e.schedulers.set i { sc with waiting := sc.waiting ++ [gnew] }).map
        (fun s => s.countRequestId x)).sum
      = (e.schedulers.map (fun s => s.countRequestId x)).sum + 1 := by
  have hsum := sum_map_set (fun s => s.countRequestId x) e.schedulers i
    { sc with waiting := sc.waiting ++ [gnew] } sc hget
  have hc := countRequestId_append_group sc x gnew hx
  simp only [hc] at hsum
  omega

/-- C7 (amended): `add_request` performs no duplicate-id check: even when
the id already names an unfinished request, the call succeeds and appends
one more `SequenceGroup` with that id to the chosen scheduler's waiting
queue (the id count increases by exactly one). -/
theorem add_request_no_duplicate_check (e : EngineState) (requestId : String)
    (prompt : List Nat) (params : Option SamplingParams) (arrival : Int)
    (sc : SchedState)
    (hget : e.schedulers.get?
        (argminIdx (e.schedulers.map SchedState.numUnfinishedSeqGroups)) = some sc)
    (_hdup : 0 < e.countRequestId requestId) :
    (addRequest e requestId prompt params arrival).countRequestId requestId
      = e.countRequestId requestId + 1 := by
  simp only [addRequest, hget, EngineState.countRequestId]
  exact engine_set_count e requestId _ sc _ hget rfl

/-- C7 witness for `add_request_no_duplicate_check`: a second add of an
already-present id raises the count from 1 to 2. -/
theorem add_request_no_duplicate_check_witness :
    (addRequest (addRequest c7Engine "rr" [1, 2] none 0) "rr" [1, 2] none 1).countRequestId "rr"
      = (addRequest c7Engine "rr" [1, 2] none 0).countRequestId "rr" + 1 :=
  add_request_no_duplicate_check (addRequest c7Engine "rr" [1, 2] none 0) "rr" [1, 2]
    none 1 c7Sched1 (by decide) (by decide)

/-- C9 (counterexample): `SkipJoinMLFQ.get_priority` is not pure — on a
group with no assigned level it writes `current_priority` (here from
`none` to `some 1`), so evaluating the priority function mutates the
sequence group. -/
theorem policy_purity_counterexample :
    (skipJoinGetPriority {} 0 c9Group).2 ≠ c9Group ∧
    (skipJoinGetPriority {} 0 c9Group).2.currentPriority = some 1 ∧
    c9Group.currentPriority = none := by
  refine ⟨?_, by decide, by decide⟩
  intro h
  have := congrArg Group.currentPriority h
  simp [show (skipJoinGetPriority {} 0 c9Group).2.currentPriority = some 1 from by decide] at this
  cases this

/-- C9 (amended): policies never touch the queues or the allocator (they
receive only the group), and their group mutations are confined to
priority metadata: FCFS leaves the group unchanged;
`SkipJoinMLFQ.get_priority` may update only `current_priority` and
`promoted`; `TFITTradeoff._get_waiting_priority` may update only
`priority_rate`. -/
theorem policy_frame_spec :
    (∀ now g, (fcfsGetPriority now g).2 = g)
  ∧ (∀ p now g,
      (skipJoinGetPriority p now g).2.requestId = g.requestId ∧
      (skipJoinGetPriority p now g).2.seqs = g.seqs ∧
      (skipJoinGetPriority p now g).2.arrivalTime = g.arrivalTime ∧
      (skipJoinGetPriority p now g).2.samplingParams = g.samplingParams ∧
      (skipJoinGetPriority p now g).2.waitingIterNums = g.waitingIterNums ∧
      (skipJoinGetPriority p now g).2.firstScheduledTime = g.firstScheduledTime ∧
      (skipJoinGetPriority p now g).2.priorityRate = g.priorityRate)
  ∧ (∀ avg g,
      (tfitWaitingPriority avg g).2.requestId = g.requestId ∧
      (tfitWaitingPriority avg g).2.seqs = g.seqs ∧
      (tfitWaitingPriority avg g).2.arrivalTime = g.arrivalTime ∧
      (tfitWaitingPriority avg g).2.samplingParams = g.samplingParams ∧
      (tfitWaitingPriority avg g).2.waitingIterNums = g.waitingIterNums ∧
      (tfitWaitingPriority avg g).2.firstScheduledTime = g.firstScheduledTime ∧
      (tfitWaitingPriority avg g).2.currentPriority = g.currentPriority ∧
      (tfitWaitingPriority avg g).2.promoted = g.promoted) := by
  refine ⟨fun now g => rfl, fun p now g => ?_, fun avg g => ?_⟩
  · simp only [skipJoinGetPriority]
    split_ifs
    all_goals simp
  · simp only [tfitWaitingPriority]
    split_ifs
    all_goals simp

/-- C8 (counterexample): in the default (non-chunked) scheduling mode the
deadline flag is never consulted — on a deadline-reached state with one
waiting group, `_schedule` runs `_schedule_default`, which raises a
TypeError (its `_schedule_prefills` call lacks the required
`pending_swapped_rate` argument) instead of producing the claimed
empty-plan/ignore-all outcome, so the deadline pass does not hold in
every scheduling mode. -/
theorem deadline_every_mode_counterexample :
    c8DefaultState.reachDdl = true ∧
    c8DefaultState.config.chunkedPrefillEnabled = false ∧
    c8DefaultState.hasUnfinishedSeqs = true ∧
    deadlineClaimHolds c8DefaultState 0 = false ∧
    schedule c8DefaultState 0 =
      .exn "TypeError: _schedule_prefills missing 1 required positional argument: pending_swapped_rate" := by
  refine ⟨by decide, by decide, by decide, by decide, rfl⟩

/-- C8 (amended): with chunked prefill enabled, the first scheduling step
on a deadline-reached state marks every sequence of every queued group
`FINISHED_STOPPED` in one pass, returns an empty plan whose ignored list
carries exactly those groups, and leaves `has_unfinished_seqs` false. -/
theorem deadline_chunked_spec (st : SchedState) (now : Int)
    (hc : st.config.chunkedPrefillEnabled = true)
    (hd : st.reachDdl = true) :
    deadlineClaimHolds st now = true ∧
    schedule st now = .plan (scheduleChunkedDdl st).1 (scheduleChunkedDdl st).2 := by
  constructor
  · simp only [deadlineClaimHolds, schedule, hc, hd, if_true]
    simp [scheduleChunkedDdl, ddlMark, SchedState.hasUnfinishedSeqs,
      List.map_map, Function.comp_def, List.all_map]
  · simp [schedule, hc, hd]

/-- C8 witness for `deadline_chunked_spec`: a chunked-mode deadline state
with one group in each queue. -/
theorem deadline_chunked_spec_witness :
    deadlineClaimHolds c8ChunkedState 0 = true ∧
    schedule c8ChunkedState 0 =
      .plan (scheduleChunkedDdl c8ChunkedState).1 (scheduleChunkedDdl c8ChunkedState).2 :=
  deadline_chunked_spec c8ChunkedState 0 rfl rfl

theorem extractFirstGroup_none_iff (x : String) (l : List Group) :
    extractFirstGroup x l = none ↔
      l.countP (fun g => g.requestId == x) = 0 := by
  induction l with
  | nil => simp [extractFirstGroup]
  | cons g rest ih =>
    by_cases h : g.requestId = x
    · simp [extractFirstGroup, List.countP_cons, h]
    · have hb : (g.requestId == x) = false := by simpa using h
      simp only [extractFirstGroup, hb, Bool.false_eq_true, if_false,
        List.countP_cons, Nat.add_zero]
      cases he : extractFirstGroup x rest with
      | some p => simp [he, ← ih]
      | none => simp [he, ← ih]

theorem extractFirstGroup_some_spec (x : String) :
    ∀ (l : List Group) (g : Group) (l1 : List Group),
      extractFirstGroup x l = some (g, l1) →
      g.requestId = x ∧
        l.countP (fun g2 => g2.requestId == x)
          = l1.countP (fun g2 => g2.requestId == x) + 1 := by
  intro l
  induction l with
  | nil => intro g l1 h; simp [extractFirstGroup] at h
  | cons a rest ih =>
    intro g l1 h
    by_cases ha : a.requestId = x
    · have hb : (a.requestId == x) = true := by simpa using ha
      simp only [extractFirstGroup] at h
      rw [hb] at h
      simp only [if_true, Option.some.injEq, Prod.mk.injEq, reduceIte] at h
      obtain ⟨hg, hl1⟩ := h
      subst hg; subst hl1
      refine ⟨ha, ?_⟩
      simp [List.countP_cons, hb]
    · have hb : (a.requestId == x) = false := by simpa using ha
      simp only [extractFirstGroup] at h
      rw [hb] at h
      simp only [Bool.false_eq_true, if_false, reduceIte] at h
      cases he : extractFirstGroup x rest with
      | none =>
        rw [he] at h
        simp at h
      | some p =>
        obtain ⟨f, r1⟩ := p
        rw [he] at h
        simp only [Option.some.injEq, Prod.mk.injEq] at h
        obtain ⟨hg, hl1⟩ := h
        subst hg
        subst hl1
        have hr := ih f r1 he
        refine ⟨hr.1, ?_⟩
        simp [List.countP_cons, hb, hr.2]

theorem mem_ids_iff_countP (x : String) (l : List Group) :
    x ∈ l.map Group.requestId ↔ 0 < l.countP (fun g => g.requestId == x) := by
  rw [List.countP_pos_iff]
  constructor
  · intro hm
    rcases List.mem_map.mp hm with ⟨a, ha, hax⟩
    exact ⟨a, ha, by simp [hax]⟩
  · rintro ⟨a, ha, hax⟩
    exact List.mem_map.mpr ⟨a, ha, by simpa using hax⟩

/-- C6: `abort_seq_group` is idempotent — given that a request id names at
most one queued group (the queue-membership invariant), a second abort of
the same id leaves the scheduler exactly as the first left it, and
aborting an id absent from all three queues leaves the queues and the
block manager unchanged. -/
theorem abort_request_idempotent (st : SchedState) (x : String) (st1 : SchedState)
    (huniq : (st.waiting ++ st.running ++ st.swapped).countP
        (fun g => g.requestId == x) ≤ 1)
    (h1 : abortSeqGroup st x = .ok st1) :
    abortSeqGroup st1 x = .ok st1 ∧ (x ∉ st.allRequestIds → st1 = st) := by
  rw [List.countP_append, List.countP_append] at huniq
  simp only [abortSeqGroup] at h1
  cases hw : extractFirstGroup x st.waiting with
  | some p =>
    obtain ⟨g, w1⟩ := p
    rw [hw] at h1
    dsimp only at h1
    cases hf : abortFreeGroup st.bm g with
    | error e => rw [hf] at h1; simp at h1
    | ok bm1 =>
      rw [hf] at h1
      simp only [Except.ok.injEq] at h1
      subst h1
      have hws := extractFirstGroup_some_spec x st.waiting g w1 hw
      have hw1 : extractFirstGroup x w1 = none :=
        (extractFirstGroup_none_iff x w1).mpr (by omega)
      have hr0 : extractFirstGroup x st.running = none :=
        (extractFirstGroup_none_iff x st.running).mpr (by omega)
      have hs0 : extractFirstGroup x st.swapped = none :=
        (extractFirstGroup_none_iff x st.swapped).mpr (by omega)
      constructor
      · simp [abortSeqGroup, hw1, hr0, hs0]
      · intro hmem
        exfalso
        apply hmem
        simp only [SchedState.allRequestIds, List.map_append, List.mem_append]
        exact Or.inl (Or.inl ((mem_ids_iff_countP x st.waiting).mpr (by omega)))
  | none =>
    rw [hw] at h1
    dsimp only at h1
    cases hr : extractFirstGroup x st.running with
    | some p =>
      obtain ⟨g, r1⟩ := p
      rw [hr] at h1
      dsimp only at h1
      cases hf : abortFreeGroup st.bm g with
      | error e => rw [hf] at h1; simp at h1
      | ok bm1 =>
        rw [hf] at h1
        simp only [Except.ok.injEq] at h1
        subst h1
        have hrs := extractFirstGroup_some_spec x st.running g r1 hr
        have hw0 : extractFirstGroup x st.waiting = none := hw
        have hwc := (extractFirstGroup_none_iff x st.waiting).mp hw
        have hr1 : extractFirstGroup x r1 = none :=
          (extractFirstGroup_none_iff x r1).mpr (by omega)
        have hs0 : extractFirstGroup x st.swapped = none :=
          (extractFirstGroup_none_iff x st.swapped).mpr (by omega)
        constructor
        · simp [abortSeqGroup, hw0, hr1, hs0]
        · intro hmem
          exfalso
          apply hmem
          simp only [SchedState.allRequestIds, List.map_append, List.mem_append]
          exact Or.inl (Or.inr ((mem_ids_iff_countP x st.running).mpr (by omega)))
    | none =>
      rw [hr] at h1
      dsimp only at h1
      cases hs : extractFirstGroup x st.swapped with
      | some p =>
        obtain ⟨g, s1⟩ := p
        rw [hs] at h1
        dsimp only at h1
        cases hf : abortFreeGroup st.bm g with
        | error e => rw [hf] at h1; simp at h1
        | ok bm1 =>
          rw [hf] at h1
          simp only [Except.ok.injEq] at h1
          subst h1
          have hss := extractFirstGroup_some_spec x st.swapped g s1 hs
          have hwc := (extractFirstGroup_none_iff x st.waiting).mp hw
          have hrc := (extractFirstGroup_none_iff x st.running).mp hr
          have hw0 : extractFirstGroup x st.waiting = none := hw
          have hr0 : extractFirstGroup x st.running = none := hr
          have hs1 : extractFirstGroup x s1 = none :=
            (extractFirstGroup_none_iff x s1).mpr (by omega)
          constructor
          · simp [abortSeqGroup, hw0, hr0, hs1]
          · intro hmem
            exfalso
            apply hmem
            simp only [SchedState.allRequestIds, List.map_append, List.mem_append]
            exact Or.inr ((mem_ids_iff_countP x st.swapped).mpr (by omega))
      | none =>
        rw [hs] at h1
        dsimp only at h1
        simp only [Except.ok.injEq] at h1
        subst h1
        refine ⟨?_, fun _ => rfl⟩
        simp [abortSeqGroup, hw, hr, hs]

theorem append_slots_cow_lemma (bm : BlockManager) (s : Seq) (table : List Blk)
    (lb : Blk) (f : Nat) (fs : List Nat)
    (hty : s.seqType = .normal)
    (hbt : s.blockTable = some table)
    (hlen : table.length = s.nBlocks)
    (hlast : table.getLast? = some lb)
    (hlb : lb.device = Device.gpu)
    (href : 1 < lookupRef bm.gpu.ref lb.number)
    (hfree : bm.gpu.freeList = f :: fs)
    (hne : lb.number ≠ f) :
    bm.appendSlots s = .ok
      ({ bm with gpu :=
          { bm.gpu with
            freeList := fs
            ref := setRef (setRef bm.gpu.ref f 1) lb.number
              (lookupRef (setRef bm.gpu.ref f 1) lb.number - 1) } },
       { s with blockTable := some (table.dropLast ++ [⟨bm.gpu.device, f⟩]) },
       [(lb.number, f)]) := by
  have hne1 : (lookupRef bm.gpu.ref lb.number == 1) = false := by
    simp only [beq_eq_false_iff_ne]
    omega
  have hsetne : lookupRef (setRef bm.gpu.ref f 1) lb.number
      = lookupRef bm.gpu.ref lb.number :=
    lookupRef_setRef_ne bm.gpu.ref f 1 lb.number hne
  simp only [BlockManager.appendSlots, hbt]
  rw [if_neg (by omega)]
  simp only [hlast, hlb, bne_self_eq_false, Bool.false_eq_true, if_false, hne1,
    BlockManager.allocateLastPhysicalBlock, hty, UncachedAllocator.allocate, hfree,
    UncachedAllocator.free]
  rw [if_neg (by omega : ¬ (lookupRef (setRef bm.gpu.ref f 1) lb.number = 0))]
  rw [if_neg (by omega : ¬ (lookupRef (setRef bm.gpu.ref f 1) lb.number - 1 = 0))]

theorem append_slots_grow_lemma (bm : BlockManager) (s : Seq) (table : List Blk)
    (f : Nat) (fs : List Nat)
    (hty : s.seqType = .normal)
    (hbt : s.blockTable = some table)
    (hlen : table.length + 1 = s.nBlocks)
    (hfree : bm.gpu.freeList = f :: fs) :
    bm.appendSlots s = .ok
      ({ bm with gpu :=
          { bm.gpu with
            freeList := fs
            ref := setRef bm.gpu.ref f 1 } },
       { s with blockTable := some (table ++ [⟨bm.gpu.device, f⟩]) },
       []) := by
  simp only [BlockManager.appendSlots, hbt]
  rw [if_pos (by omega)]
  rw [if_neg (by omega : ¬ (table.length + 1 ≠ s.nBlocks))]
  simp [BlockManager.allocateLastPhysicalBlock, hty, UncachedAllocator.allocate, hfree]

/-- C3: `append_slots` with a full table whose last block is shared
(ref_count > 1) performs copy-on-write — it takes a fresh block off the
free list (free count down by exactly one), replaces the table's last
entry with it, decrements the old block's ref count, and returns exactly
the one pair `(old_number, new_number)`; when instead the sequence has
crossed a block boundary (the table is one block short of `n_blocks`), it
allocates one block, appends it to the table, and returns the empty
list. -/
theorem append_slots_spec :
    (∀ (bm : BlockManager) (s : Seq) (table : List Blk) (lb : Blk) (f : Nat)
        (fs : List Nat),
      bm.gpu.device = Device.gpu → s.seqType = .normal →
      s.blockTable = some table → table.length = s.nBlocks →
      table.getLast? = some lb → lb.device = Device.gpu →
      1 < lookupRef bm.gpu.ref lb.number →
      bm.gpu.freeList = f :: fs → lb.number ≠ f →
      ∃ bm1 s1,
        bm.appendSlots s = .ok (bm1, s1, [(lb.number, f)]) ∧
        s1.blockTable = some (table.dropLast ++ [⟨Device.gpu, f⟩]) ∧
        lookupRef bm1.gpu.ref lb.number + 1 = lookupRef bm.gpu.ref lb.number ∧
        lookupRef bm1.gpu.ref f = 1 ∧
        bm1.gpu.freeList = fs)
  ∧ (∀ (bm : BlockManager) (s : Seq) (table : List Blk) (f : Nat) (fs : List Nat),
      bm.gpu.device = Device.gpu → s.seqType = .normal →
      s.blockTable = some table → table.length + 1 = s.nBlocks →
      bm.gpu.freeList = f :: fs →
      ∃ bm1 s1,
        bm.appendSlots s = .ok (bm1, s1, []) ∧
        s1.blockTable = some (table ++ [⟨Device.gpu, f⟩]) ∧
        lookupRef bm1.gpu.ref f = 1 ∧
        bm1.gpu.freeList = fs) := by
  constructor
  · intro bm s table lb f fs hdev hty hbt hlen hlast hlb href hfree hne
    have hsetne : lookupRef (setRef bm.gpu.ref f 1) lb.number
        = lookupRef bm.gpu.ref lb.number :=
      lookupRef_setRef_ne bm.gpu.ref f 1 lb.number hne
    refine ⟨_, _,
      append_slots_cow_lemma bm s table lb f fs hty hbt hlen hlast hlb href hfree hne,
      ?_, ?_, ?_, ?_⟩
    · simp [hdev]
    · simp only []
      rw [lookupRef_setRef_self, hsetne]
      omega
    · simp only []
      rw [lookupRef_setRef_ne _ _ _ _ (Ne.symm hne), lookupRef_setRef_self]
    · rfl
  · intro bm s table f fs hdev hty hbt hlen hfree
    refine ⟨_, _,
      append_slots_grow_lemma bm s table f fs hty hbt hlen hfree,
      ?_, ?_, ?_⟩
    · simp [hdev]
    · simp only []
      rw [lookupRef_setRef_self]
    · rfl

/-- C3 witness for `append_slots_spec`: the COW case on `c3SeqCow` (its
shared last block 0 is replaced by fresh block 3, pair `(0, 3)`) and the
new-logical-block case on `c3SeqGrow`. -/
theorem append_slots_spec_witness :
    (∃ bm1 s1,
      c3Bm.appendSlots c3SeqCow = .ok (bm1, s1, [(0, 3)]) ∧
      s1.blockTable = some ([⟨.gpu, 1⟩, ⟨.gpu, 0⟩].dropLast ++ [⟨Device.gpu, 3⟩]) ∧
      lookupRef bm1.gpu.ref 0 + 1 = lookupRef c3Bm.gpu.ref 0 ∧
      lookupRef bm1.gpu.ref 3 = 1 ∧
      bm1.gpu.freeList = []) ∧
    (∃ bm1 s1,
      c3Bm.appendSlots c3SeqGrow = .ok (bm1, s1, []) ∧
      s1.blockTable = some ([⟨.gpu, 2⟩] ++ [⟨Device.gpu, 3⟩]) ∧
      lookupRef bm1.gpu.ref 3 = 1 ∧
      bm1.gpu.freeList = []) :=
  ⟨append_slots_spec.1 c3Bm c3SeqCow [⟨.gpu, 1⟩, ⟨.gpu, 0⟩] ⟨.gpu, 0⟩ 3 []
      rfl rfl rfl (by decide) rfl rfl (by decide) rfl (by decide),
   append_slots_spec.2 c3Bm c3SeqGrow [⟨.gpu, 2⟩] 3 []
      rfl rfl rfl (by decide) rfl⟩

/-- C6 witness for `abort_request_idempotent`: aborting `r6` in `c6State`
frees its two device blocks and removes it from the running queue, and a
second abort is a no-op; aborting the absent id leaves the state alone. -/
theorem abort_request_idempotent_witness :
    abortSeqGroup c6Aborted "r6" = .ok c6Aborted ∧
    ("r6" ∉ c6State.allRequestIds → c6Aborted = c6State) :=
  abort_request_idempotent c6State "r6" c6Aborted (by decide) rfl

theorem allocate_ok_spec (a : UncachedAllocator) (b : Blk) (a1 : UncachedAllocator)
    (h : a.allocate = .ok (b, a1)) :
    b.device = a.device ∧ a1.device = a.device := by
  cases hf : a.freeList with
  | nil => simp [UncachedAllocator.allocate, hf] at h
  | cons bn rest =>
    simp only [UncachedAllocator.allocate, hf, Except.ok.injEq, Prod.mk.injEq] at h
    obtain ⟨hb, ha⟩ := h
    subst hb; subst ha
    exact ⟨rfl, rfl⟩

theorem free_ok_device (a : UncachedAllocator) (bn : Nat) (bt : BlockType)
    (a1 : UncachedAllocator) (h : a.free bn bt = .ok a1) :
    a1.device = a.device := by
  simp only [UncachedAllocator.free] at h
  split_ifs at h
  · cases bt <;> simp_all <;> subst h <;> rfl
  · simp only [Except.ok.injEq] at h
    subst h
    rfl

theorem swapBlockTable_spec :
    ∀ (table : List Blk) (src dest : UncachedAllocator) (m : List (Blk × Blk))
      (out : List Blk) (src1 dest1 : UncachedAllocator) (m1 : List (Blk × Blk)),
      swapBlockTable table src dest m = .ok (out, src1, dest1, m1) →
      (∀ p ∈ m, p.2.device = dest.device) →
      out.length = table.length ∧ (∀ b ∈ out, b.device = dest.device) ∧
      src1.device = src.device ∧ dest1.device = dest.device ∧
      (∀ p ∈ m1, p.2.device = dest.device) := by
  intro table
  induction table with
  | nil =>
    intro src dest m out src1 dest1 m1 h hm
    simp only [swapBlockTable, Except.ok.injEq, Prod.mk.injEq] at h
    obtain ⟨h1, h2, h3, h4⟩ := h
    subst h1; subst h2; subst h3; subst h4
    exact ⟨rfl, by simp, rfl, rfl, hm⟩
  | cons fromBlock rest ih =>
    intro src dest m out src1 dest1 m1 h hm
    simp only [swapBlockTable] at h
    cases hfind : m.find? (fun p => p.1 == fromBlock) with
    | some p =>
      rw [hfind] at h
      dsimp only at h
      cases hfr : src.free fromBlock.number with
      | error e => rw [hfr] at h; simp at h
      | ok srcA =>
        rw [hfr] at h
        dsimp only at h
        cases hrec : swapBlockTable rest srcA { dest with ref := setRef dest.ref p.2.number (lookupRef dest.ref p.2.number + 1) } m with
        | error e => rw [hrec] at h; simp at h
        | ok q =>
          obtain ⟨restTable, src2, dest2, m2⟩ := q
          rw [hrec] at h
          simp only [Except.ok.injEq, Prod.mk.injEq] at h
          obtain ⟨h1, h2, h3, h4⟩ := h
          subst h1; subst h2; subst h3; subst h4
          have hdev : p.2.device = dest.device :=
            hm p (List.mem_of_find?_eq_some hfind)
          have ihh := ih srcA _ m restTable src2 dest2 m2 hrec (by simpa using hm)
          refine ⟨by simp [ihh.1], ?_, ?_, ?_, ?_⟩
          · intro b hb
            rcases List.mem_cons.mp hb with hb | hb
            · subst hb; exact hdev
            · exact ihh.2.1 b hb
          · rw [ihh.2.2.1]
            exact free_ok_device src fromBlock.number .normal srcA hfr
          · exact ihh.2.2.2.1
          · exact ihh.2.2.2.2
    | none =>
      rw [hfind] at h
      dsimp only at h
      cases hal : dest.allocate with
      | error e => rw [hal] at h; simp at h
      | ok pr =>
        obtain ⟨toBlock, destA⟩ := pr
        rw [hal] at h
        dsimp only at h
        cases hfr : src.free fromBlock.number with
        | error e => rw [hfr] at h; simp at h
        | ok srcA =>
          rw [hfr] at h
          dsimp only at h
          cases hrec : swapBlockTable rest srcA destA (m ++ [(fromBlock, toBlock)]) with
          | error e => rw [hrec] at h; simp at h
          | ok q =>
            obtain ⟨restTable, src2, dest2, m2⟩ := q
            rw [hrec] at h
            simp only [Except.ok.injEq, Prod.mk.injEq] at h
            obtain ⟨h1, h2, h3, h4⟩ := h
            subst h1; subst h2; subst h3; subst h4
            have hals := allocate_ok_spec dest toBlock destA hal
            have hm1 : ∀ p ∈ m ++ [(fromBlock, toBlock)], p.2.device = destA.device := by
              intro p hp
              rcases List.mem_append.mp hp with hp | hp
              · rw [hals.2]; exact hm p hp
              · simp at hp
                subst hp
                simp [hals.1, hals.2]
            have ihh := ih srcA destA (m ++ [(fromBlock, toBlock)])
              restTable src2 dest2 m2 hrec hm1
            refine ⟨by simp [ihh.1], ?_, ?_, ?_, ?_⟩
            · intro b hb
              rcases List.mem_cons.mp hb with hb | hb
              · subst hb; exact hals.1
              · rw [← hals.2]; exact ihh.2.1 b hb
            · rw [ihh.2.2.1]
              exact free_ok_device src fromBlock.number .normal srcA hfr
            · rw [ihh.2.2.2.1, hals.2]
            · intro p hp
              rw [← hals.2]
              exact ihh.2.2.2.2 p hp

theorem processSeqs_spec {α : Type} (step : α → Seq → Except String (α × Seq))
    (inv : α → Prop) (r : Seq → Seq → Prop)
    (hstep : ∀ st s st1 s1, inv st → step st s = .ok (st1, s1) → inv st1 ∧ r s s1) :
    ∀ (sel : List Seq) (st st1 : α) (out : List Seq),
      inv st → processSeqs step st sel = .ok (st1, out) →
      inv st1 ∧ List.Forall₂ r sel out := by
  intro sel
  induction sel with
  | nil =>
    intro st st1 out hinv h
    simp only [processSeqs, Except.ok.injEq, Prod.mk.injEq] at h
    obtain ⟨h1, h2⟩ := h
    subst h1; subst h2
    exact ⟨hinv, List.Forall₂.nil⟩
  | cons s rest ih =>
    intro st st1 out hinv h
    simp only [processSeqs] at h
    cases hs : step st s with
    | error e => rw [hs] at h; simp at h
    | ok p =>
      obtain ⟨stm, sm⟩ := p
      rw [hs] at h
      dsimp only at h
      cases hr : processSeqs step stm rest with
      | error e => rw [hr] at h; simp at h
      | ok q =>
        obtain ⟨st2, rest1⟩ := q
        rw [hr] at h
        simp only [Except.ok.injEq, Prod.mk.injEq] at h
        obtain ⟨h1, h2⟩ := h
        subst h1; subst h2
        have hst := hstep st s stm sm hinv hs
        have ihh := ih stm _ rest1 hst.1 hr
        exact ⟨ihh.1, List.Forall₂.cons hst.2 ihh.2⟩

theorem swapOutSeq_full_spec (gpu cpu : UncachedAllocator) (m : List (Blk × Blk))
    (s : Seq) (n : Int) (gpu1 cpu1 : UncachedAllocator) (m1 : List (Blk × Blk))
    (s1 : Seq)
    (hn : ¬ 0 < n)
    (hdev : cpu.device = Device.cpu)
    (hm : ∀ p ∈ m, p.2.device = Device.cpu)
    (h : swapOutSeq gpu cpu m s n = .ok (gpu1, cpu1, m1, s1)) :
    SwapOutFullRel s s1 ∧ gpu1.device = gpu.device ∧ cpu1.device = Device.cpu ∧
    (∀ p ∈ m1, p.2.device = Device.cpu) := by
  cases hbt : s.blockTable with
  | none => simp [swapOutSeq, hbt] at h
  | some t =>
    simp only [swapOutSeq, hbt] at h
    rw [if_neg hn] at h
    cases hsw : swapBlockTable t gpu cpu m with
    | error e => rw [hsw] at h; simp at h
    | ok q =>
      obtain ⟨outT, gpuA, cpuA, mA⟩ := q
      rw [hsw] at h
      simp only [Except.ok.injEq, Prod.mk.injEq] at h
      obtain ⟨h1, h2, h3, h4⟩ := h
      subst h1; subst h2; subst h3; subst h4
      have hspec := swapBlockTable_spec t gpu cpu m outT gpuA cpuA mA hsw
        (by rw [hdev]; exact hm)
      refine ⟨⟨?_, t, outT, hbt, rfl, hspec.1, ?_, ?_⟩, hspec.2.2.1, ?_, ?_⟩
      · exact ⟨⟨rfl, rfl, rfl, rfl, rfl, rfl, rfl, rfl⟩, rfl⟩
      · intro b hb
        rw [← hdev]
        exact hspec.2.1 b hb
      · rfl
      · rw [hspec.2.2.2.1, hdev]
      · intro p hp
        rw [← hdev]
        exact hspec.2.2.2.2 p hp

theorem swapOutSeq_partial_spec (gpu cpu : UncachedAllocator) (m : List (Blk × Blk))
    (s : Seq) (nn : Nat) (gpu1 cpu1 : UncachedAllocator) (m1 : List (Blk × Blk))
    (s1 : Seq)
    (hn : 0 < nn)
    (hdev : cpu.device = Device.cpu)
    (hm : ∀ p ∈ m, p.2.device = Device.cpu)
    (h : swapOutSeq gpu cpu m s (nn : Int) = .ok (gpu1, cpu1, m1, s1)) :
    SwapOutPartialRel nn s s1 ∧ gpu1.device = gpu.device ∧ cpu1.device = Device.cpu ∧
    (∀ p ∈ m1, p.2.device = Device.cpu) := by
  cases hbt : s.blockTable with
  | none => simp [swapOutSeq, hbt] at h
  | some t =>
    simp only [swapOutSeq, hbt] at h
    rw [if_pos (by exact_mod_cast hn)] at h
    rw [show ((nn : Int)).toNat = nn from Int.toNat_natCast nn] at h
    cases hsw : swapBlockTable ((t.take (min (s.swappedOutBlockNums + nn) t.length)).drop
        s.swappedOutBlockNums) gpu cpu m with
    | error e => rw [hsw] at h; simp at h
    | ok q =>
      obtain ⟨outT, gpuA, cpuA, mA⟩ := q
      rw [hsw] at h
      simp only [Except.ok.injEq, Prod.mk.injEq] at h
      obtain ⟨h1, h2, h3, h4⟩ := h
      subst h1; subst h2; subst h3; subst h4
      have hspec := swapBlockTable_spec _ gpu cpu m outT gpuA cpuA mA hsw
        (by rw [hdev]; exact hm)
      have hlen : outT.length
          = min (s.swappedOutBlockNums + nn) t.length - s.swappedOutBlockNums := by
        rw [hspec.1]
        simp [List.length_drop, List.length_take]
      refine ⟨⟨?_, t, outT, hbt, rfl, hlen, ?_, ?_⟩, hspec.2.2.1, ?_, ?_⟩
      · exact ⟨⟨rfl, rfl, rfl, rfl, rfl, rfl, rfl, rfl⟩, rfl⟩
      · intro b hb
        rw [← hdev]
        exact hspec.2.1 b hb
      · rfl
      · rw [hspec.2.2.2.1, hdev]
      · intro p hp
        rw [← hdev]
        exact hspec.2.2.2.2 p hp

theorem replaceCpuBlocks_length : ∀ (t r : List Blk),
    (replaceCpuBlocks t r).length = t.length := by
  intro t
  induction t with
  | nil => intro r; simp [replaceCpuBlocks]
  | cons b rest ih =>
    intro r
    simp only [replaceCpuBlocks]
    split_ifs with hb
    · cases r with
      | nil => simp [ih]
      | cons r0 rs => simp [ih]
    · simp [ih]

theorem replaceCpuBlocks_all_gpu : ∀ (t r : List Blk),
    r.length = (t.filter (fun b => b.device == Device.cpu)).length →
    (∀ b ∈ r, b.device = Device.gpu) →
    ∀ b ∈ replaceCpuBlocks t r, b.device = Device.gpu := by
  intro t
  induction t with
  | nil => intro r _ _ b hb; simp [replaceCpuBlocks] at hb
  | cons a rest ih =>
    intro r hlen hr b hb
    by_cases ha : a.device = Device.cpu
    · have hfb : (a.device == Device.cpu) = true := by simp [ha]
      rw [List.filter_cons, if_pos hfb] at hlen
      simp only [replaceCpuBlocks, hfb, if_true] at hb
      cases r with
      | nil => simp at hlen
      | cons r0 rs =>
        simp only [List.length_cons, Nat.add_right_cancel_iff] at hlen
        simp only [List.mem_cons] at hb
        rcases hb with hb | hb
        · subst hb
          exact hr _ (List.mem_cons_self _ _)
        · exact ih rs hlen (fun x hx => hr x (List.mem_cons_of_mem _ hx)) b hb
    · have hfb : (a.device == Device.cpu) = false := by simp [ha]
      rw [List.filter_cons, if_neg (by simp [hfb])] at hlen
      simp only [replaceCpuBlocks, hfb, Bool.false_eq_true, if_false] at hb
      simp only [List.mem_cons] at hb
      rcases hb with hb | hb
      · subst hb
        cases hd : b.device with
        | gpu => rfl
        | cpu => exact absurd hd ha
      · exact ih r hlen hr b hb

theorem swapInSeq_spec (cpu gpu : UncachedAllocator) (m : List (Blk × Blk))
    (s : Seq) (cpu1 gpu1 : UncachedAllocator) (m1 : List (Blk × Blk)) (s1 : Seq)
    (hdev : gpu.device = Device.gpu)
    (hm : ∀ p ∈ m, p.2.device = Device.gpu)
    (h : swapInSeq cpu gpu m s = .ok (cpu1, gpu1, m1, s1)) :
    SwapInRel s s1 ∧ cpu1.device = cpu.device ∧ gpu1.device = Device.gpu ∧
    (∀ p ∈ m1, p.2.device = Device.gpu) := by
  cases hbt : s.blockTable with
  | none => simp [swapInSeq, hbt] at h
  | some t =>
    simp only [swapInSeq, hbt] at h
    cases hemp : (t.filter (fun b => b.device == Device.cpu)).isEmpty with
    | true =>
      rw [if_pos hemp] at h
      cases hsw : swapBlockTable t cpu gpu m with
      | error e => rw [hsw] at h; simp at h
      | ok q =>
        obtain ⟨outT, cpuA, gpuA, mA⟩ := q
        rw [hsw] at h
        simp only [Except.ok.injEq, Prod.mk.injEq] at h
        obtain ⟨h1, h2, h3, h4⟩ := h
        subst h1; subst h2; subst h3; subst h4
        have hspec := swapBlockTable_spec t cpu gpu m outT cpuA gpuA mA hsw
          (by rw [hdev]; exact hm)
        refine ⟨⟨⟨⟨rfl, rfl, rfl, rfl, rfl, rfl, rfl, rfl⟩, rfl⟩, rfl,
          t, outT, hbt, rfl, hspec.1, ?_⟩, hspec.2.2.1, ?_, ?_⟩
        · intro b hb
          rw [← hdev]
          exact hspec.2.1 b hb
        · rw [hspec.2.2.2.1, hdev]
        · intro p hp
          rw [← hdev]
          exact hspec.2.2.2.2 p hp
    | false =>
      rw [if_neg (by simp [hemp])] at h
      cases hsw : swapBlockTable (t.filter (fun b => b.device == Device.cpu)) cpu gpu m with
      | error e => rw [hsw] at h; simp at h
      | ok q =>
        obtain ⟨outT, cpuA, gpuA, mA⟩ := q
        rw [hsw] at h
        simp only [Except.ok.injEq, Prod.mk.injEq] at h
        obtain ⟨h1, h2, h3, h4⟩ := h
        subst h1; subst h2; subst h3; subst h4
        have hspec := swapBlockTable_spec _ cpu gpu m outT cpuA gpuA mA hsw
          (by rw [hdev]; exact hm)
        refine ⟨⟨⟨⟨rfl, rfl, rfl, rfl, rfl, rfl, rfl, rfl⟩, rfl⟩, rfl,
          t, replaceCpuBlocks t outT, hbt, rfl, replaceCpuBlocks_length t outT, ?_⟩,
          hspec.2.2.1, ?_, ?_⟩
        · refine replaceCpuBlocks_all_gpu t outT hspec.1 ?_
          intro b hb
          rw [← hdev]
          exact hspec.2.1 b hb
        · rw [hspec.2.2.2.1, hdev]
        · intro p hp
          rw [← hdev]
          exact hspec.2.2.2.2 p hp

theorem map_find_processed : ∀ (xs ys : List Seq),
    List.Forall₂ (fun a b => b.seqId = a.seqId) xs ys →
    (xs.map Seq.seqId).Nodup →
    (xs.map (fun s =>
      match ys.find? (fun p => p.seqId == s.seqId) with
      | some p => p
      | none => s)) = ys := by
  intro xs
  induction xs with
  | nil =>
    intro ys hf _
    cases hf
    rfl
  | cons x xs ih =>
    intro ys hf hnd
    cases hf with
    | cons hxy htail =>
      rename_i y ys2
      simp only [List.map_cons]
      have hhead : (y :: ys2).find? (fun p => p.seqId == x.seqId) = some y := by
        simp [List.find?_cons, hxy]
      rw [List.map_cons] at *
      simp only [List.nodup_cons] at hnd
      have hcongr : ∀ a ∈ xs,
          (match (y :: ys2).find? (fun p => p.seqId == a.seqId) with
           | some p => p
           | none => a)
        = (match ys2.find? (fun p => p.seqId == a.seqId) with
           | some p => p
           | none => a) := by
        intro a ha
        have hne : y.seqId ≠ a.seqId := by
          rw [hxy]
          intro hcontra
          exact hnd.1 (hcontra ▸ List.mem_map_of_mem Seq.seqId ha)
        have : (y.seqId == a.seqId) = false := by simpa using hne
        simp [List.find?_cons, this]
      rw [hhead]
      congr 1
      rw [List.map_congr_left hcongr]
      exact ih ys2 htail hnd.2

theorem forall₂_mem_right {r : Seq → Seq → Prop} {p : Seq → Prop} :
    ∀ {xs ys : List Seq}, List.Forall₂ r xs ys →
      (∀ x y, r x y → p y) → ∀ y ∈ ys, p y := by
  intro xs ys hf hp
  induction hf with
  | nil => intro y hy; simp at hy
  | cons h _ ih =>
    intro y hy
    rcases List.mem_cons.mp hy with hy | hy
    · subst hy; exact hp _ _ h
    · exact ih y hy

theorem forall₂_imp_mem {r s : Seq → Seq → Prop} :
    ∀ {xs ys : List Seq}, List.Forall₂ r xs ys →
      (∀ x ∈ xs, ∀ y, r x y → s x y) → List.Forall₂ s xs ys := by
  intro xs ys hf
  induction hf with
  | nil => intro _; exact List.Forall₂.nil
  | cons h _ ih =>
    intro himp
    refine List.Forall₂.cons (himp _ (by simp) _ h) (ih ?_)
    intro x hx y hr
    exact himp x (List.mem_cons_of_mem _ hx) y hr

theorem forall₂_seqIds_eq :
    ∀ {xs ys : List Seq}, List.Forall₂ (fun a b => b.seqId = a.seqId) xs ys →
      ys.map Seq.seqId = xs.map Seq.seqId := by
  intro xs ys hf
  induction hf with
  | nil => rfl
  | cons h _ ih => simp [h, ih]

theorem map_device_replicate : ∀ (l : List Blk) (d : Device),
    (∀ b ∈ l, b.device = d) → l.map Blk.device = List.replicate l.length d := by
  intro l
  induction l with
  | nil => intro d _; rfl
  | cons b rest ih =>
    intro d hd
    simp only [List.map_cons, List.length_cons, List.replicate_succ]
    rw [hd b (by simp), ih d (fun x hx => hd x (List.mem_cons_of_mem _ hx))]

theorem roundtrip_compose : ∀ (xs ms ps : List Seq),
    List.Forall₂ SwapOutFullFlipRel xs ms →
    List.Forall₂ SwapInFlipRel ms ps →
    (∀ x ∈ xs, x.status = SequenceStatus.running) →
    (∀ x ∈ xs, x.swappedOutBlockNums = 0) →
    (∀ x ∈ xs, ∀ t, x.blockTable = some t → ∀ b ∈ t, b.device = Device.gpu) →
    List.Forall₂ SeqEquiv xs ps := by
  intro xs
  induction xs with
  | nil =>
    intro ms ps hA hB _ _ _
    cases hA
    cases hB
    exact List.Forall₂.nil
  | cons x xs ih =>
    intro ms ps hA hB hst hctr htbl
    cases hA with
    | cons hxm hA2 =>
      rename_i m ms2
      cases hB with
      | cons hmp hB2 =>
        rename_i p ps2
        refine List.Forall₂.cons ?_ (ih ms2 ps2 hA2 hB2
          (fun a ha => hst a (List.mem_cons_of_mem _ ha))
          (fun a ha => hctr a (List.mem_cons_of_mem _ ha))
          (fun a ha => htbl a (List.mem_cons_of_mem _ ha)))
        obtain ⟨hcoreA, hstatA, t, t1, hxt, hmt, hlen1, hcpu1, hctrA⟩ := hxm
        obtain ⟨hcoreB, hstatB, hctrB, t1b, t2, hmt2, hpt, hlen2, hgpu2⟩ := hmp
        have ht1 : t1b = t1 := by
          rw [hmt] at hmt2
          exact (Option.some.injEq _ _ ▸ hmt2).symm ▸ rfl
        obtain ⟨hidA, hbsA, hprA, houtA, hncA, hstgA, htyA, heosA⟩ := hcoreA
        obtain ⟨hidB, hbsB, hprB, houtB, hncB, hstgB, htyB, heosB⟩ := hcoreB
        refine ⟨hidB.trans hidA, hbsB.trans hbsA, hprB.trans hprA,
          houtB.trans houtA, hncB.trans hncA, hstgB.trans hstgA,
          ?_, htyB.trans htyA, ?_, heosB.trans heosA, t, t2, hxt, hpt, ?_, ?_⟩
        · rw [hstatB, hst x (by simp)]
        · rw [hctrB, hctr x (by simp)]
        · rw [hlen2, ht1, hlen1]
        · have hxgpu := htbl x (by simp) t hxt
          rw [map_device_replicate t2 Device.gpu hgpu2,
            map_device_replicate t Device.gpu hxgpu, hlen2, ht1, hlen1]

theorem withProcessed_seqs (g : Group) (processed : List Seq)
    (hf : List.Forall₂ (fun a b => b.seqId = a.seqId) g.seqs processed)
    (hnd : (g.seqs.map Seq.seqId).Nodup) :
    (g.withProcessed processed).seqs = processed := by
  simp only [Group.withProcessed]
  exact map_find_processed g.seqs processed hf hnd

theorem getSeqs_all_eq (g : Group) (st : SequenceStatus)
    (hall : ∀ s ∈ g.seqs, s.status = st) :
    g.getSeqs st = g.seqs := by
  simp only [Group.getSeqs]
  apply List.filter_eq_self.mpr
  intro s hs
  simp [hall s hs]

theorem getSeqs_none (g : Group) (st : SequenceStatus)
    (hall : ∀ s ∈ g.seqs, s.status ≠ st) :
    g.getSeqs st = [] := by
  simp only [Group.getSeqs]
  apply List.filter_eq_nil_iff.mpr
  intro s hs
  simp [hall s hs]

theorem swapOut_group_full_spec (bm : BlockManager) (g : Group)
    (bm1 : BlockManager) (g1 : Group) (pairs : List (Nat × Nat))
    (hdev : bm.cpu.device = Device.cpu)
    (hall : ∀ s ∈ g.seqs, s.status = SequenceStatus.running)
    (hnd : (g.seqs.map Seq.seqId).Nodup)
    (h : bm.swapOut g (-1) = .ok (bm1, g1, pairs)) :
    List.Forall₂ SwapOutFullRel g.seqs g1.seqs ∧
    g1.requestId = g.requestId ∧ g1.arrivalTime = g.arrivalTime ∧
    g1.samplingParams = g.samplingParams ∧
    bm1.gpu.device = bm.gpu.device ∧ bm1.cpu.device = Device.cpu := by
  have hsel : g.getSeqs .running ++ g.getSeqs .partialSwapped = g.seqs := by
    rw [getSeqs_all_eq g _ hall,
      getSeqs_none g _ (fun s hs => by rw [hall s hs]; intro hcontra; cases hcontra),
      List.append_nil]
  simp only [BlockManager.swapOut] at h
  rw [hsel] at h
  cases hp : processSeqs (swapOutStep (-1)) ⟨bm.gpu, bm.cpu, []⟩ g.seqs with
  | error e => rw [hp] at h; simp at h
  | ok q =>
    obtain ⟨stF, processed⟩ := q
    rw [hp] at h
    simp only [Except.ok.injEq, Prod.mk.injEq] at h
    obtain ⟨hbm, hg, hpr⟩ := h
    have hps := processSeqs_spec (swapOutStep (-1))
      (fun st => st.src.device = bm.gpu.device ∧ st.dest.device = Device.cpu ∧
        ∀ p ∈ st.mapping, p.2.device = Device.cpu)
      SwapOutFullRel
      (by
        intro st s st1 s1 hinv hstep0
        simp only [swapOutStep] at hstep0
        cases hso : swapOutSeq st.src st.dest st.mapping s (-1) with
        | error e => rw [hso] at hstep0; simp at hstep0
        | ok r =>
          obtain ⟨gA, cA, mA, sA⟩ := r
          rw [hso] at hstep0
          simp only [Except.ok.injEq, Prod.mk.injEq] at hstep0
          obtain ⟨h1, h2⟩ := hstep0
          subst h1; subst h2
          have hx := swapOutSeq_full_spec st.src st.dest st.mapping s (-1)
            gA cA mA sA (by norm_num) hinv.2.1 hinv.2.2 hso
          exact ⟨⟨hx.2.1.trans hinv.1, hx.2.2.1, hx.2.2.2⟩, hx.1⟩)
      g.seqs ⟨bm.gpu, bm.cpu, []⟩ stF processed ⟨rfl, hdev, by simp⟩ hp
    have hids : List.Forall₂ (fun a b => b.seqId = a.seqId) g.seqs processed :=
      List.Forall₂.imp (fun a b hr => hr.1.1.1) hps.2
    have hseqs : g1.seqs = processed := by
      rw [← hg]
      exact withProcessed_seqs g processed hids hnd
    refine ⟨by rw [hseqs]; exact hps.2, ?_, ?_, ?_, ?_, ?_⟩
    · rw [← hg]; rfl
    · rw [← hg]; rfl
    · rw [← hg]; rfl
    · rw [← hbm]; exact hps.1.1
    · rw [← hbm]; exact hps.1.2.1

theorem swapOut_group_partial_spec (bm : BlockManager) (g : Group) (nn : Nat)
    (bm1 : BlockManager) (g1 : Group) (pairs : List (Nat × Nat))
    (hn : 0 < nn)
    (hdev : bm.cpu.device = Device.cpu)
    (hall : ∀ s ∈ g.seqs, s.status = SequenceStatus.running)
    (hnd : (g.seqs.map Seq.seqId).Nodup)
    (h : bm.swapOut g (nn : Int) = .ok (bm1, g1, pairs)) :
    List.Forall₂ (SwapOutPartialRel nn) g.seqs g1.seqs ∧
    g1.requestId = g.requestId ∧ g1.arrivalTime = g.arrivalTime ∧
    g1.samplingParams = g.samplingParams ∧
    bm1.gpu.device = bm.gpu.device ∧ bm1.cpu.device = Device.cpu := by
  have hsel : g.getSeqs .running ++ g.getSeqs .partialSwapped = g.seqs := by
    rw [getSeqs_all_eq g _ hall,
      getSeqs_none g _ (fun s hs => by rw [hall s hs]; intro hcontra; cases hcontra),
      List.append_nil]
  simp only [BlockManager.swapOut] at h
  rw [hsel] at h
  cases hp : processSeqs (swapOutStep (nn : Int)) ⟨bm.gpu, bm.cpu, []⟩ g.seqs with
  | error e => rw [hp] at h; simp at h
  | ok q =>
    obtain ⟨stF, processed⟩ := q
    rw [hp] at h
    simp only [Except.ok.injEq, Prod.mk.injEq] at h
    obtain ⟨hbm, hg, hpr⟩ := h
    have hps := processSeqs_spec (swapOutStep (nn : Int))
      (fun st => st.src.device = bm.gpu.device ∧ st.dest.device = Device.cpu ∧
        ∀ p ∈ st.mapping, p.2.device = Device.cpu)
      (SwapOutPartialRel nn)
      (by
        intro st s st1 s1 hinv hstep0
        simp only [swapOutStep] at hstep0
        cases hso : swapOutSeq st.src st.dest st.mapping s (nn : Int) with
        | error e => rw [hso] at hstep0; simp at hstep0
        | ok r =>
          obtain ⟨gA, cA, mA, sA⟩ := r
          rw [hso] at hstep0
          simp only [Except.ok.injEq, Prod.mk.injEq] at hstep0
          obtain ⟨h1, h2⟩ := hstep0
          subst h1; subst h2
          have hx := swapOutSeq_partial_spec st.src st.dest st.mapping s nn
            gA cA mA sA hn hinv.2.1 hinv.2.2 hso
          exact ⟨⟨hx.2.1.trans hinv.1, hx.2.2.1, hx.2.2.2⟩, hx.1⟩)
      g.seqs ⟨bm.gpu, bm.cpu, []⟩ stF processed ⟨rfl, hdev, by simp⟩ hp
    have hids : List.Forall₂ (fun a b => b.seqId = a.seqId) g.seqs processed :=
      List.Forall₂.imp (fun a b hr => hr.1.1.1) hps.2
    have hseqs : g1.seqs = processed := by
      rw [← hg]
      exact withProcessed_seqs g processed hids hnd
    refine ⟨by rw [hseqs]; exact hps.2, ?_, ?_, ?_, ?_, ?_⟩
    · rw [← hg]; rfl
    · rw [← hg]; rfl
    · rw [← hg]; rfl
    · rw [← hbm]; exact hps.1.1
    · rw [← hbm]; exact hps.1.2.1

theorem swapIn_group_spec (bm : BlockManager) (g : Group)
    (bm1 : BlockManager) (g1 : Group) (pairs : List (Nat × Nat))
    (hdev : bm.gpu.device = Device.gpu)
    (hall : ∀ s ∈ g.seqs, s.status = SequenceStatus.swapped)
    (hnd : (g.seqs.map Seq.seqId).Nodup)
    (h : bm.swapIn g = .ok (bm1, g1, pairs)) :
    List.Forall₂ SwapInRel g.seqs g1.seqs ∧
    g1.requestId = g.requestId ∧ g1.arrivalTime = g.arrivalTime ∧
    g1.samplingParams = g.samplingParams ∧
    bm1.cpu.device = bm.cpu.device ∧ bm1.gpu.device = Device.gpu := by
  have hsel : g.getSeqs .swapped ++ g.getSeqs .partialSwapped = g.seqs := by
    rw [getSeqs_all_eq g _ hall,
      getSeqs_none g _ (fun s hs => by rw [hall s hs]; intro hcontra; cases hcontra),
      List.append_nil]
  simp only [BlockManager.swapIn] at h
  rw [hsel] at h
  cases hp : processSeqs swapInStep ⟨bm.cpu, bm.gpu, []⟩ g.seqs with
  | error e => rw [hp] at h; simp at h
  | ok q =>
    obtain ⟨stF, processed⟩ := q
    rw [hp] at h
    simp only [Except.ok.injEq, Prod.mk.injEq] at h
    obtain ⟨hbm, hg, hpr⟩ := h
    have hps := processSeqs_spec swapInStep
      (fun st => st.src.device = bm.cpu.device ∧ st.dest.device = Device.gpu ∧
        ∀ p ∈ st.mapping, p.2.device = Device.gpu)
      SwapInRel
      (by
        intro st s st1 s1 hinv hstep0
        simp only [swapInStep] at hstep0
        cases hso : swapInSeq st.src st.dest st.mapping s with
        | error e => rw [hso] at hstep0; simp at hstep0
        | ok r =>
          obtain ⟨cA, gA, mA, sA⟩ := r
          rw [hso] at hstep0
          simp only [Except.ok.injEq, Prod.mk.injEq] at hstep0
          obtain ⟨h1, h2⟩ := hstep0
          subst h1; subst h2
          have hx := swapInSeq_spec st.src st.dest st.mapping s
            cA gA mA sA hinv.2.1 hinv.2.2 hso
          exact ⟨⟨hx.2.1.trans hinv.1, hx.2.2.1, hx.2.2.2⟩, hx.1⟩)
      g.seqs ⟨bm.cpu, bm.gpu, []⟩ stF processed ⟨rfl, hdev, by simp⟩ hp
    have hids : List.Forall₂ (fun a b => b.seqId = a.seqId) g.seqs processed :=
      List.Forall₂.imp (fun a b hr => hr.1.1.1) hps.2
    have hseqs : g1.seqs = processed := by
      rw [← hg]
      exact withProcessed_seqs g processed hids hnd
    refine ⟨by rw [hseqs]; exact hps.2, ?_, ?_, ?_, ?_, ?_⟩
    · rw [← hg]; rfl
    · rw [← hg]; rfl
    · rw [← hg]; rfl
    · rw [← hbm]; exact hps.1.1
    · rw [← hbm]; exact hps.1.2.1

theorem schedSwapOut_group_full (bm : BlockManager) (g : Group)
    (bm1 : BlockManager) (g1 : Group) (pairs : List (Nat × Nat))
    (hdev : bm.cpu.device = Device.cpu)
    (hall : ∀ s ∈ g.seqs, s.status = SequenceStatus.running)
    (hnd : (g.seqs.map Seq.seqId).Nodup)
    (h : schedSwapOut bm g (-1) .swapped = .ok (bm1, g1, pairs)) :
    List.Forall₂ SwapOutFullFlipRel g.seqs g1.seqs ∧
    g1.requestId = g.requestId ∧ g1.arrivalTime = g.arrivalTime ∧
    g1.samplingParams = g.samplingParams ∧
    bm1.gpu.device = bm.gpu.device ∧ bm1.cpu.device = Device.cpu := by
  simp only [schedSwapOut] at h
  cases hcan : bm.canSwapOut g with
  | false => rw [hcan] at h; simp at h
  | true =>
    rw [hcan] at h
    simp only [Bool.not_true, Bool.false_eq_true, if_false] at h
    cases hso : bm.swapOut g (-1) with
    | error e => rw [hso] at h; simp at h
    | ok r =>
      obtain ⟨bmA, gA, prA⟩ := r
      rw [hso] at h
      simp only [Except.ok.injEq, Prod.mk.injEq] at h
      obtain ⟨hbm, hg, hpr⟩ := h
      have hx := swapOut_group_full_spec bm g bmA gA prA hdev hall hnd hso
      refine ⟨?_, ?_, ?_, ?_, ?_, ?_⟩
      · rw [← hg]
        apply List.forall₂_map_right_iff.mpr
        refine forall₂_imp_mem hx.1 ?_
        intro a ha b hr
        have hbst : b.status = SequenceStatus.running := by
          rw [hr.1.2, hall a ha]
        have hcond : (b.status == SequenceStatus.running) = true := by
          simp [hbst]
        rw [hcond, if_pos rfl]
        obtain ⟨t, t1, hat, hbt, hlen, hcpu, hctr⟩ := hr.2
        exact ⟨hr.1.1, rfl, t, t1, hat, hbt, hlen, hcpu, hctr⟩
      · rw [← hg]; exact hx.2.1
      · rw [← hg]; exact hx.2.2.1
      · rw [← hg]; exact hx.2.2.2.1
      · rw [← hbm]; exact hx.2.2.2.2.1
      · rw [← hbm]; exact hx.2.2.2.2.2

theorem schedSwapIn_group (bm : BlockManager) (g : Group)
    (bm1 : BlockManager) (g1 : Group) (pairs : List (Nat × Nat))
    (hdev : bm.gpu.device = Device.gpu)
    (hall : ∀ s ∈ g.seqs, s.status = SequenceStatus.swapped)
    (hnd : (g.seqs.map Seq.seqId).Nodup)
    (h : schedSwapIn bm g = .ok (bm1, g1, pairs)) :
    List.Forall₂ SwapInFlipRel g.seqs g1.seqs ∧
    g1.requestId = g.requestId ∧ g1.arrivalTime = g.arrivalTime ∧
    g1.samplingParams = g.samplingParams ∧
    bm1.cpu.device = bm.cpu.device ∧ bm1.gpu.device = Device.gpu := by
  simp only [schedSwapIn] at h
  cases hso : bm.swapIn g with
  | error e => rw [hso] at h; simp at h
  | ok r =>
    obtain ⟨bmA, gA, prA⟩ := r
    rw [hso] at h
    simp only [Except.ok.injEq, Prod.mk.injEq] at h
    obtain ⟨hbm, hg, hpr⟩ := h
    have hx := swapIn_group_spec bm g bmA gA prA hdev hall hnd hso
    refine ⟨?_, ?_, ?_, ?_, ?_, ?_⟩
    · rw [← hg]
      apply List.forall₂_map_right_iff.mpr
      refine forall₂_imp_mem hx.1 ?_
      intro a ha b hr
      have hbst : b.status = SequenceStatus.swapped := by
        rw [hr.1.2, hall a ha]
      have hcond : (b.status == SequenceStatus.swapped
          || b.status == SequenceStatus.partialSwapped) = true := by
        simp [hbst]
      rw [hcond, if_pos rfl]
      obtain ⟨t, t1, hat, hbt, hlen, hgpu⟩ := hr.2.2
      exact ⟨hr.1.1, rfl, hr.2.1, t, t1, hat, hbt, hlen, hgpu⟩
    · rw [← hg]; exact hx.2.1
    · rw [← hg]; exact hx.2.2.1
    · rw [← hg]; exact hx.2.2.2.1
    · rw [← hbm]; exact hx.2.2.2.2.1
    · rw [← hbm]; exact hx.2.2.2.2.2

/-- **C2.** For every running sequence group (decoder-only, with distinct
sequence ids, zero swap counters and device-resident tables), swapping out
all of its device blocks (`swap_out(G, -1)` through the scheduler wrapper)
and then swapping the group back in returns the group to a state
equivalent to its pre-swap state up to physical block numbers: request
identity, sampling parameters, arrival time, the prompt and generated
tokens, each sequence's `num_computed_tokens`, status, stage and swap
counter are unchanged, and each block table has its original length with
every entry back on the device. -/
theorem swap_roundtrip_preserves_group (bm : BlockManager) (g : Group)
    (bm1 bm2 : BlockManager) (g1 g2 : Group)
    (pairs1 pairs2 : List (Nat × Nat))
    (hgpu : bm.gpu.device = Device.gpu)
    (hcpu : bm.cpu.device = Device.cpu)
    (hall : ∀ s ∈ g.seqs, s.status = SequenceStatus.running)
    (hctr : ∀ s ∈ g.seqs, s.swappedOutBlockNums = 0)
    (htbl : ∀ s ∈ g.seqs, ∀ b ∈ s.blockTable.getD [], b.device = Device.gpu)
    (hnd : (g.seqs.map Seq.seqId).Nodup)
    (h1 : schedSwapOut bm g (-1) SequenceStatus.swapped = .ok (bm1, g1, pairs1))
    (h2 : schedSwapIn bm1 g1 = .ok (bm2, g2, pairs2)) :
    GroupEquiv g g2 := by
  have hA := schedSwapOut_group_full bm g bm1 g1 pairs1 hcpu hall hnd h1
  have hall1 : ∀ s ∈ g1.seqs, s.status = SequenceStatus.swapped :=
    forall₂_mem_right hA.1 (fun _ _ hr => hr.2.1)
  have hnd1 : (g1.seqs.map Seq.seqId).Nodup := by
    rw [forall₂_seqIds_eq (List.Forall₂.imp (fun _ _ hr => hr.1.1) hA.1)]
    exact hnd
  have hgpu1 : bm1.gpu.device = Device.gpu := by rw [hA.2.2.2.2.1, hgpu]
  have hB := schedSwapIn_group bm1 g1 bm2 g2 pairs2 hgpu1 hall1 hnd1 h2
  have htbl2 : ∀ s ∈ g.seqs, ∀ t, s.blockTable = some t →
      ∀ b ∈ t, b.device = Device.gpu := by
    intro s hs t ht b hb
    have h0 := htbl s hs
    rw [ht] at h0
    exact h0 b hb
  exact ⟨hB.2.1.trans hA.2.1, hB.2.2.1.trans hA.2.2.1,
    hB.2.2.2.1.trans hA.2.2.2.1,
    roundtrip_compose g.seqs g1.seqs g2.seqs hA.1 hB.1 hall hctr htbl2⟩

/-- **C2 witness**: the round trip on a concrete two-sequence running
group restores an equivalent group (tokens, computed counts and statuses
identical; tables device-resident with the original lengths). -/
theorem swap_roundtrip_preserves_group_witness : GroupEquiv c2Group c2G2 :=
  swap_roundtrip_preserves_group c2Bm c2Group c2Bm1 c2Bm2 c2G1 c2G2
    [(0, 3), (1, 2), (2, 1)] [(3, 2), (2, 1), (1, 0)]
    rfl rfl (by decide) (by decide) (by decide) (by decide) rfl rfl

/-- **C4 (amended).** For a running group with distinct sequence ids:
with `nblocks = n ≥ 1`, `swap_out` replaces, in each sequence's table,
exactly the slice from the first not-yet-swapped index up to
`min(counter + n, len)` — i.e. the next `min(n, remaining)` blocks, not
necessarily `n` — by host blocks, leaves the rest of the table untouched,
and advances the counter to `min(n_blocks, counter + n)`; with
`nblocks = -1` it swaps every device block of every sequence, the whole
table becoming host-resident with its length preserved. -/
theorem swap_out_blocks_spec :
    (∀ (bm : BlockManager) (g : Group) (nn : Nat) (bm1 : BlockManager)
       (g1 : Group) (pairs : List (Nat × Nat)),
       0 < nn →
       bm.cpu.device = Device.cpu →
       (∀ s ∈ g.seqs, s.status = SequenceStatus.running) →
       (g.seqs.map Seq.seqId).Nodup →
       bm.swapOut g (nn : Int) = .ok (bm1, g1, pairs) →
       List.Forall₂ (SwapOutPartialRel nn) g.seqs g1.seqs) ∧
    (∀ (bm : BlockManager) (g : Group) (bm1 : BlockManager)
       (g1 : Group) (pairs : List (Nat × Nat)),
       bm.cpu.device = Device.cpu →
       (∀ s ∈ g.seqs, s.status = SequenceStatus.running) →
       (g.seqs.map Seq.seqId).Nodup →
       bm.swapOut g (-1) = .ok (bm1, g1, pairs) →
       List.Forall₂ SwapOutFullRel g.seqs g1.seqs) :=
  ⟨fun bm g nn bm1 g1 pairs hn hdev hall hnd h =>
    (swapOut_group_partial_spec bm g nn bm1 g1 pairs hn hdev hall hnd h).1,
   fun bm g bm1 g1 pairs hdev hall hnd h =>
    (swapOut_group_full_spec bm g bm1 g1 pairs hdev hall hnd h).1⟩

/-- **C4 counterexample**: with `nblocks = 5 ≥ 1` on a one-sequence group
whose table holds 2 device blocks (none swapped yet), `swap_out` moves
only 2 block pairs, not the 5 the claim promises ("swaps exactly the next
nblocks blocks of each sequence"): the slice is capped at the table
length. -/
theorem swap_out_exact_nblocks_counterexample :
    swapOutPairCount c4Bm c4Group 5 = some 2 ∧
    (∀ s ∈ c4Group.seqs,
      s.swappedOutBlockNums = 0 ∧ (s.blockTable.getD []).length = 2) ∧
    c4Group.seqs.length = 1 ∧ (2 : Nat) ≠ 5 :=
  ⟨rfl, by decide, by decide, by decide⟩

/-- **C4 witness**: on the counterexample state the amended statement
holds — `swap_out(c4Group, 5)` moves the capped slice of 2 blocks and
advances the counter to 2. -/
theorem swap_out_blocks_spec_witness :
    List.Forall₂ (SwapOutPartialRel 5) c4Group.seqs c4G1.seqs :=
  swap_out_blocks_spec.1 c4Bm c4Group 5 c4Bm1 c4G1 [(0, 2), (1, 1)]
    (by decide) rfl (by decide) (by decide) rfl

end VllmModel
